import Mathlib

/-!
# Keyspace-wide major compaction tasks

A shallow embedding of `compaction/task_manager_module.cc`:

* `run_on_existing_tables` (lines 15-31), the per-table runner;
* `major_keyspace_compaction_task_impl::run` (lines 33-40), the keyspace coordinator;
* `shard_major_keyspace_compaction_task_impl::is_internal` (lines 42-44) and
  `shard_major_keyspace_compaction_task_impl::run` (lines 46-58), the shard worker.

The code is a Seastar coroutine running on one shard.  Its effects are made explicit:

* `σ` is the state of the shard-local world (the `replica::database` and everything the awaited
  per-table operation may touch while the runner is suspended);
* an exception is a value of `Except`;
* the calls to `tasks::tmlogger` and the calls to the per-table operation are recorded, in program
  order, in a list of `event`s.

`replica/database.hh`, the task framework, `seastar::sharded` and `std::ranges::sort` are not part of
the file; what the code uses of them is taken as a parameter (`database`, `ranges_sort`,
`sharded`).  What depends on the algorithm of the sort, and not only on its contract, is stated
of the sort of libstdc++ (`libstdcxx_sort`).
-/

namespace compaction

/-- What a `try` block of the file can catch: `replica::no_such_column_family` (with its `what()`
text), matched by the first handler, or anything else, matched by `catch (...)`. -/
inductive thrown (ε : Type) where
  | no_such_column_family (what : String)
  | other (e : ε)
  deriving DecidableEq, Repr

deriving instance DecidableEq for Except

/-- The part of `replica::database` and `replica::table` that the file uses.
`τ` is `table_id`, `T` is a resolved `replica::table&`. -/
structure database (σ τ T ε : Type) where
  /-- `db.find_column_family(ti)`: the table, or an exception. -/
  find_column_family : σ → τ → Except (thrown ε) T
  /-- `t.get_stats().live_disk_space_used`, an `int64_t`. -/
  live_disk_space_used : σ → T → Int
  /-- `t.compact_all_sstables()`: its outcome and the state it leaves. -/
  compact_all_sstables : T → σ → Except (thrown ε) Unit × σ

/-- What the runner does that can be observed from outside, in program order. -/
inductive event (τ T ε : Type) where
  /-- `tasks::tmlogger.debug("Starting {} on {}.{}", op, keyspace, ti)` -/
  | debug (op keyspace : String) (ti : τ)
  /-- `tasks::tmlogger.warn("Skipping {} of {}.{}: {}", op, keyspace, ti, e.what())` -/
  | warn (op keyspace : String) (ti : τ) (what : String)
  /-- `tasks::tmlogger.error("Failed {} of {}.{}: {}", op, keyspace, ti, ex)` -/
  | error (op keyspace : String) (ti : τ) (ex : thrown ε)
  /-- `func(t)` is called on the table `t` that `ti` resolved to -/
  | func_called (ti : τ) (t : T)
  /-- the future returned by `func(t)` has resolved, with this outcome -/
  | func_resolved (ti : τ) (res : Except (thrown ε) Unit)
  deriving DecidableEq, Repr

/-- Outcome of a coroutine returning `future<>`: the value or exception of the future, the state
of the world when it resolves, and the events emitted on the way. -/
structure outcome (σ τ T ε : Type) where
  result : Except (thrown ε) Unit
  state : σ
  trace : List (event τ T ε)

/-- Line 20, `co_await func(db.find_column_family(ti))`: the argument is evaluated first; when the
lookup throws, `func` is not called and the state is untouched. -/
def call_func {σ τ T ε : Type} (db : database σ τ T ε)
    (func : T → σ → Except (thrown ε) Unit × σ) (s : σ) (ti : τ) : outcome σ τ T ε :=
  match db.find_column_family s ti with
  | .error e => ⟨.error e, s, []⟩
  | .ok t =>
    let r := func t s
    ⟨r.1, r.2, [event.func_called ti t, event.func_resolved ti r.1]⟩

/-- The exception other than `no_such_column_family`, if there is one, that the attempt on `ti`
in state `s` produces, be it thrown by the lookup or by the per-table operation. -/
def table_error {σ τ T ε : Type} (db : database σ τ T ε)
    (func : T → σ → Except (thrown ε) Unit × σ) (s : σ) (ti : τ) : Option ε :=
  match (call_func db func s ti).result with
  | .error (.other e) => some e
  | _ => none

/-- The table that `ti` resolves to in state `s`, paired with `ti`, when the lookup succeeds. -/
def resolve {σ τ T ε : Type} (db : database σ τ T ε) (s : σ) (ti : τ) : Option (τ × T) :=
  match db.find_column_family s ti with
  | .ok t => some (ti, t)
  | .error _ => none

/-- The live disk space, in state `s`, of the table that `ti` resolves to in `s`. -/
def initial_size {σ τ T ε : Type} (db : database σ τ T ε) (s : σ) (ti : τ) : Option Int :=
  match db.find_column_family s ti with
  | .ok t => some (db.live_disk_space_used s t)
  | .error _ => none

/-- Puts the events `pre`, emitted earlier, in front of the trace of `o`. -/
def outcome.after {σ τ T ε : Type} (pre : List (event τ T ε)) (o : outcome σ τ T ε) :
    outcome σ τ T ε :=
  { o with trace := pre ++ o.trace }

/-- Lines 15-31.  One equation per iteration of the `for` loop over `local_tables`:
the debug entry (line 18), the `try` block (line 20), then
* no exception: `ex` is still null, the loop goes on;
* `no_such_column_family` (lines 21-22): a warning, `ex` is still null, the loop goes on;
* anything else (lines 23-25): `ex` is set and logged, and line 28 returns it at once.
When the list is exhausted the coroutine returns normally. -/
def run_on_existing_tables {σ τ T ε : Type} (op : String) (db : database σ τ T ε)
    (keyspace : String) (func : T → σ → Except (thrown ε) Unit × σ) :
    List τ → σ → outcome σ τ T ε
  | [], s => ⟨.ok (), s, []⟩
  | ti :: rest, s =>
    let r := call_func db func s ti
    match r.result with
    | .ok _ =>
      (run_on_existing_tables op db keyspace func rest r.state).after
        (event.debug op keyspace ti :: r.trace)
    | .error (.no_such_column_family what) =>
      (run_on_existing_tables op db keyspace func rest r.state).after
        (event.debug op keyspace ti :: r.trace ++ [event.warn op keyspace ti what])
    | .error (.other e) =>
      ⟨.error (.other e), r.state,
        event.debug op keyspace ti :: r.trace ++ [event.error op keyspace ti (.other e)]⟩

/-- The table ids of the `debug` entries of a trace: the tables the runner started on. -/
def attempted {τ T ε : Type} : List (event τ T ε) → List τ
  | [] => []
  | .debug _ _ ti :: tr => ti :: attempted tr
  | _ :: tr => attempted tr

/-- The calls to the per-table operation recorded in a trace, as `(table_id, table)`. -/
def invocations {τ T ε : Type} : List (event τ T ε) → List (τ × T)
  | [] => []
  | .func_called ti t :: tr => (ti, t) :: invocations tr
  | _ :: tr => invocations tr

/-- The entries of the log in a trace: the events that are calls to `tasks::tmlogger`. -/
def logged {τ T ε : Type} : List (event τ T ε) → List (event τ T ε)
  | [] => []
  | .func_called _ _ :: tr => logged tr
  | .func_resolved _ _ :: tr => logged tr
  | e :: tr => e :: logged tr

/-- The number of `error` entries in a trace. -/
def error_entries {τ T ε : Type} : List (event τ T ε) → Nat
  | [] => 0
  | .error _ _ _ _ :: tr => error_entries tr + 1
  | _ :: tr => error_entries tr

/-- What the log is to hold for one table, given how the attempt on it ended: one debug entry;
then one warning when the table was skipped for `no_such_column_family`, one error entry when
the attempt failed with anything else, and nothing more when it succeeded. -/
def table_log {τ T ε : Type} (op keyspace : String) (ti : τ) :
    Except (thrown ε) Unit → List (event τ T ε)
  | .ok _ => [event.debug op keyspace ti]
  | .error (.no_such_column_family what) =>
    [event.debug op keyspace ti, event.warn op keyspace ti what]
  | .error (.other e) => [event.debug op keyspace ti, event.error op keyspace ti (.other e)]

/-- The contract of `std::ranges::sort(r, std::less<>(), proj)` for a projection with `int64_t`
values that may throw `ε`.  The algorithm is the standard library's; the C++ standard fixes the
result up to the order of equivalent elements, which it leaves unspecified. -/
structure ranges_sort (α ε : Type) where
  /-- the sorted range, or the exception that left the call -/
  sort : (α → Except ε Int) → List α → Except ε (List α)
  /-- when the projection returns on every element, so does the sort -/
  returns : ∀ (proj : α → Except ε Int) (l : List α),
    (∀ x ∈ l, ∃ k, proj x = .ok k) → ∃ l', sort proj l = .ok l'
  /-- what is returned is a rearrangement of the range, in non-descending order of the keys -/
  sorted : ∀ (proj : α → Except ε Int) (l l' : List α), sort proj l = .ok l' →
    l'.Perm l ∧ l'.Pairwise (fun a b => ∀ ka kb, proj a = .ok ka → proj b = .ok kb → ka ≤ kb)
  /-- an exception leaving the sort was thrown by the projection on an element of the range -/
  rethrows : ∀ (proj : α → Except ε Int) (l : List α) (e : ε), sort proj l = .error e →
    ∃ x ∈ l, proj x = .error e
  /-- in a range of two or more elements every element takes part in a comparison, so an element
  on which the projection throws makes the sort throw -/
  compares_all : ∀ (proj : α → Except ε Int) (l : List α), 2 ≤ l.length →
    (∃ x ∈ l, ∃ e, proj x = .error e) → ∃ e, sort proj l = .error e

/-- `tasks::task_info`: the `(id, shard)` of a parent task. -/
structure task_info (ι : Type) where
  id : ι
  shard : Nat
  deriving DecidableEq, Repr

/-- The fields of `tasks::task_manager::task::status` that the file reads. -/
structure status (ι : Type) where
  id : ι
  shard : Nat
  keyspace : String
  deriving DecidableEq, Repr

/-- `tasks::is_internal`, a two-valued class. -/
inductive is_internal where
  | no
  | yes
  deriving DecidableEq, Repr

/-- The coordinator, `major_keyspace_compaction_task_impl`: the members `run` reads.  The member
`_db`, a `sharded<replica::database>&`, is passed to `run` as the states of the shards. -/
structure major_keyspace_compaction_task_impl (ι τ : Type) where
  _status : status ι
  _table_infos : List τ
  deriving DecidableEq, Repr

/-- Modelled from the spec: the class `shard_major_keyspace_compaction_task_impl` and
`make_and_start_task` are declared in headers that are not part of the file.  A shard worker is
constructed with the parent `task_info`, the keyspace name, the coordinator's id, the shard-local
database reference (here the number of its shard) and a table list. -/
structure shard_major_keyspace_compaction_task_impl (ι τ : Type) where
  parent_info : task_info ι
  keyspace : String
  parent_id : ι
  shard : Nat
  _local_tables : List τ
  deriving DecidableEq, Repr

/-- Lines 42-44. -/
def shard_major_keyspace_compaction_task_impl.is_internal {ι τ : Type}
    (_ : shard_major_keyspace_compaction_task_impl ι τ) : is_internal :=
  is_internal.yes

/-- Lines 48-54, the projection handed to the sort: the live disk space of the table, `int64_t(-1)`
when the lookup throws `no_such_column_family`; any other exception is not caught here. -/
def sort_projection {σ τ T ε : Type} (db : database σ τ T ε) (s : σ) (ti : τ) :
    Except (thrown ε) Int :=
  match db.find_column_family s ti with
  | .ok t => .ok (db.live_disk_space_used s t)
  | .error (.no_such_column_family _) => .ok (-1)
  | .error (.other e) => .error (.other e)

/-- Whether the sort key of `ti`, read in state `s`, is `k`. -/
def has_key {σ τ T ε : Type} (db : database σ τ T ε) (s : σ) (k : Int) (ti : τ) : Bool :=
  match sort_projection db s ti with
  | .ok k' => k' == k
  | .error _ => false

/-- Lines 46-58.  The sort runs without suspension in the state `s` in which `run` starts; an
exception leaving it leaves `run` before the runner is called.  Otherwise the runner is called on
the sorted `_local_tables` with `compact_all_sstables` as the per-table operation. -/
def shard_major_keyspace_compaction_task_impl.run {σ ι τ T ε : Type}
    (std : ranges_sort τ (thrown ε)) (db : database σ τ T ε)
    (task : shard_major_keyspace_compaction_task_impl ι τ) (s : σ) : outcome σ τ T ε :=
  match std.sort (sort_projection db s) task._local_tables with
  | .error e => ⟨.error e, s, []⟩
  | .ok sorted =>
    run_on_existing_tables "force_keyspace_compaction" db task.keyspace
      db.compact_all_sstables sorted s

/-- Modelled from the spec: `seastar::sharded<Service>::invoke_on_all` is not part of the file.
It runs the function on every shard and completes when all have returned; it succeeds when every
shard succeeded, and otherwise fails with the error of one of the shards that failed.  The argument
lists the outcome of the function on shard 0, 1, ... -/
structure sharded (ε : Type) where
  invoke_on_all : List (Except ε Unit) → Except ε Unit
  succeeds : ∀ rs : List (Except ε Unit), invoke_on_all rs = .ok () ↔ ∀ r ∈ rs, r = .ok ()
  fails : ∀ (rs : List (Except ε Unit)) (e : ε), invoke_on_all rs = .error e → .error e ∈ rs

/-- Modelled from the spec: `make_and_start_task<shard_major_keyspace_compaction_task_impl>` is
declared in a header that is not part of the file.  It creates the task from its arguments as a
child of `parent_info` and starts it on the shard of `db`. -/
def make_and_start_task {ι τ : Type} (parent_info : task_info ι) (keyspace : String)
    (parent_id : ι) (shard : Nat) (local_tables : List τ) :
    shard_major_keyspace_compaction_task_impl ι τ :=
  ⟨parent_info, keyspace, parent_id, shard, local_tables⟩

/-- Lines 35-38, the function that `invoke_on_all` runs on the shard `shard`, whose database is in
state `s`: the task it creates, and the outcome of `task->done()`, which is the outcome of the
task's `run`. -/
def on_shard {σ ι τ T ε : Type} (std : ranges_sort τ (thrown ε)) (db : database σ τ T ε)
    (self : major_keyspace_compaction_task_impl ι τ) (shard : Nat) (s : σ) :
    shard_major_keyspace_compaction_task_impl ι τ × outcome σ τ T ε :=
  let parent_info : task_info ι := ⟨self._status.id, self._status.shard⟩
  let task := make_and_start_task parent_info self._status.keyspace self._status.id shard
    self._table_infos
  (task, task.run std db s)

/-- What the coordinator's `run` leaves behind: the value or exception of its future, and for each
shard the task created there and the outcome of that task. -/
structure fan_out (σ ι τ T ε : Type) where
  result : Except (thrown ε) Unit
  shards : List (shard_major_keyspace_compaction_task_impl ι τ × outcome σ τ T ε)

/-- Lines 33-40.  `smp` is the number of shards and `states i` the state of the database of shard
`i` when the function reaches it. -/
def major_keyspace_compaction_task_impl.run {σ ι τ T ε : Type} (_db : sharded (thrown ε))
    (std : ranges_sort τ (thrown ε)) (db : database σ τ T ε)
    (self : major_keyspace_compaction_task_impl ι τ) (smp : Nat) (states : Nat → σ) :
    fan_out σ ι τ T ε :=
  let shards := (List.range smp).map (fun shard => on_shard std db self shard (states shard))
  ⟨_db.invoke_on_all (shards.map (fun r => r.2.result)), shards⟩

/-! ### Implementations of the library contracts

One implementation of each contract: a sort by insertion, and an `invoke_on_all` that reports
the failure of the lowest-numbered shard. -/

/-- Evaluates the projection on every element, in order; stops at the first exception. -/
def keyed {α ε : Type} (proj : α → Except ε Int) : List α → Except ε (List (Int × α))
  | [] => .ok []
  | x :: xs =>
    match proj x with
    | .error e => .error e
    | .ok k =>
      match keyed proj xs with
      | .error e => .error e
      | .ok ks => .ok ((k, x) :: ks)

/-- A sort by comparison of projected keys, given the rearrangement `f` of the keyed elements.
A range of fewer than two elements needs no comparison and is returned as it is. -/
def sort_with {α ε : Type} (f : List (Int × α) → List (Int × α)) (proj : α → Except ε Int)
    (l : List α) : Except ε (List α) :=
  if l.length < 2 then .ok l
  else
    match keyed proj l with
    | .error e => .error e
    | .ok ks => .ok ((f ks).map Prod.snd)

/-- The comparison `std::less<>()` never finds the second key below the first. -/
def key_le {α : Type} (a b : Int × α) : Prop := a.1 ≤ b.1

instance key_le_decidable {α : Type} : DecidableRel (@key_le α) :=
  fun a b => inferInstanceAs (Decidable (a.1 ≤ b.1))

instance key_le_total {α : Type} : IsTotal (Int × α) key_le :=
  ⟨fun a b => Int.le_total a.1 b.1⟩

instance key_le_trans {α : Type} : IsTrans (Int × α) key_le :=
  ⟨fun _ _ _ hab hbc => Int.le_trans hab hbc⟩

/-- Insertion of the elements one by one, from the back of the range: equal keys keep their
order. -/
def insertion_order {α : Type} (ks : List (Int × α)) : List (Int × α) :=
  ks.insertionSort key_le

/-! ### The sort of libstdc++

`std::ranges::sort` is not part of the program.  In libstdc++ (GCC 12, `bits/ranges_algo.h`,
`bits/stl_algo.h`, `bits/stl_heap.h`) it is `std::sort` with the comparison
`comp(proj(a), proj(b))`: an introsort, which partitions ranges of more than 16 elements around a
median of three, sorts a range by heap when the depth limit is used up, and finishes by insertion.
The functions below follow it one by one, on a list for the range and numbers for the iterators;
a loop takes the length of the range as the bound of its turns. -/


/-- From the library: `comp(first + i, first + j)` on the range `v`. -/
def comp_at {β : Type} (comp : β → β → Bool) (v : List β) (i j : Nat) : Bool :=
  match v[i]?, v[j]? with
  | some x, some y => comp x y
  | _, _ => false

/-- From the library: `std::iter_swap(first + i, first + j)`. -/
def iter_swap {β : Type} (v : List β) (i j : Nat) : List β :=
  match v[i]?, v[j]? with
  | some x, some y => (v.set i y).set j x
  | _, _ => v

/-- From the library: `*(first + i) = std::move(*(first + j))`. -/
def move_to {β : Type} (v : List β) (i j : Nat) : List β :=
  match v[j]? with
  | some y => v.set i y
  | none => v

/-- From the library: `__move_median_to_first(first + result, first + a, first + b, first + c, comp)`. -/
def __move_median_to_first {β : Type} (comp : β → β → Bool) (v : List β)
    (result a b c : Nat) : List β :=
  if comp_at comp v a b then
    if comp_at comp v b c then iter_swap v result b
    else if comp_at comp v a c then iter_swap v result c
    else iter_swap v result a
  else if comp_at comp v a c then iter_swap v result a
  else if comp_at comp v b c then iter_swap v result c
  else iter_swap v result b

/-- From the library: `while (comp(first, pivot)) ++first;` -/
def scan_up {β : Type} (comp : β → β → Bool) (v : List β) (pivot : Nat) : Nat → Nat → Nat
  | 0, first => first
  | fuel + 1, first =>
    if comp_at comp v first pivot then scan_up comp v pivot fuel (first + 1) else first

/-- From the library: `while (comp(pivot, last)) --last;` -/
def scan_down {β : Type} (comp : β → β → Bool) (v : List β) (pivot : Nat) : Nat → Nat → Nat
  | 0, last => last
  | fuel + 1, last =>
    if comp_at comp v pivot last then scan_down comp v pivot fuel (last - 1) else last

/-- From the library: `__unguarded_partition(first + first, first + last, first + pivot, comp)`: the
rearranged range and the cut. -/
def __unguarded_partition {β : Type} (comp : β → β → Bool) (pivot : Nat) :
    Nat → List β → Nat → Nat → List β × Nat
  | 0, v, first, _ => (v, first)
  | fuel + 1, v, first, last =>
    let first := scan_up comp v pivot v.length first
    let last := last - 1
    let last := scan_down comp v pivot v.length last
    if first < last then
      __unguarded_partition comp pivot fuel (iter_swap v first last) (first + 1) last
    else (v, first)

/-- From the library: `__unguarded_partition_pivot(first, last, comp)` on the range `v`. -/
def __unguarded_partition_pivot {β : Type} (comp : β → β → Bool) (v : List β) : List β × Nat :=
  let mid := v.length / 2
  let v := __move_median_to_first comp v 0 1 mid (v.length - 1)
  __unguarded_partition comp 0 v.length v 1 v.length

/-- From the library: `__push_heap(first, holeIndex, topIndex, value, comp)`. -/
def __push_heap {β : Type} (comp : β → β → Bool) (topIndex : Nat) (value : β) :
    Nat → List β → Nat → List β
  | 0, v, holeIndex => v.set holeIndex value
  | fuel + 1, v, holeIndex =>
    let parent := (holeIndex - 1) / 2
    match v[parent]? with
    | some p =>
      if topIndex < holeIndex ∧ comp p value = true then
        __push_heap comp topIndex value fuel (v.set holeIndex p) parent
      else v.set holeIndex value
    | none => v.set holeIndex value

/-- The first loop of `__adjust_heap`: the hole moves down to the greater child. -/
def sift_hole {β : Type} (comp : β → β → Bool) (len : Nat) :
    Nat → List β → Nat → Nat → List β × Nat × Nat
  | 0, v, holeIndex, secondChild => (v, holeIndex, secondChild)
  | fuel + 1, v, holeIndex, secondChild =>
    if secondChild < (len - 1) / 2 then
      let secondChild := 2 * (secondChild + 1)
      let secondChild :=
        if comp_at comp v secondChild (secondChild - 1) then secondChild - 1 else secondChild
      sift_hole comp len fuel (move_to v holeIndex secondChild) secondChild secondChild
    else (v, holeIndex, secondChild)

/-- From the library: `__adjust_heap(first, holeIndex, len, value, comp)`. -/
def __adjust_heap {β : Type} (comp : β → β → Bool) (v : List β) (holeIndex len : Nat)
    (value : β) : List β :=
  let topIndex := holeIndex
  let (v, holeIndex, secondChild) := sift_hole comp len len v holeIndex holeIndex
  let (v, holeIndex) :=
    if len % 2 = 0 ∧ secondChild = (len - 2) / 2 then
      let secondChild := 2 * (secondChild + 1)
      (move_to v holeIndex (secondChild - 1), secondChild - 1)
    else (v, holeIndex)
  __push_heap comp topIndex value len v holeIndex

/-- From the library: `__pop_heap(first, first + last, first + result, comp)`. -/
def __pop_heap {β : Type} (comp : β → β → Bool) (v : List β) (last result : Nat) : List β :=
  match v[result]? with
  | some value => __adjust_heap comp (move_to v result 0) 0 last value
  | none => v

/-- The loop of `__make_heap`, from `parent` down to 0. -/
def make_heap_from {β : Type} (comp : β → β → Bool) (len : Nat) : Nat → List β → List β
  | 0, v =>
    match v[0]? with
    | some value => __adjust_heap comp v 0 len value
    | none => v
  | parent + 1, v =>
    match v[parent + 1]? with
    | some value => make_heap_from comp len parent (__adjust_heap comp v (parent + 1) len value)
    | none => v

/-- From the library: `__make_heap(first, last, comp)`. -/
def __make_heap {β : Type} (comp : β → β → Bool) (v : List β) : List β :=
  if v.length < 2 then v else make_heap_from comp v.length ((v.length - 2) / 2) v

/-- From the library: `__sort_heap(first, first + last, comp)`. -/
def __sort_heap {β : Type} (comp : β → β → Bool) : Nat → List β → List β
  | 0, v => v
  | last + 1, v => if 1 < last + 1 then __sort_heap comp last (__pop_heap comp v last last) else v

/-- From the library: `__partial_sort(first, last, last, comp)`: `__heap_select` has nothing to select from. -/
def __partial_sort {β : Type} (comp : β → β → Bool) (v : List β) : List β :=
  __sort_heap comp v.length (__make_heap comp v)

/-- From the library: `enum { _S_threshold = 16 };` -/
def _S_threshold : Nat := 16

/-- From the library: `__introsort_loop(first, last, depth_limit, comp)` on the range `v`: the part from the cut on
is sorted by the call, the part in front of it by the next turn of the loop. -/
def __introsort_loop {β : Type} (comp : β → β → Bool) : Nat → List β → List β
  | 0, v => if _S_threshold < v.length then __partial_sort comp v else v
  | depth_limit + 1, v =>
    if _S_threshold < v.length then
      let (v, cut) := __unguarded_partition_pivot comp v
      __introsort_loop comp depth_limit (v.take cut) ++
        __introsort_loop comp depth_limit (v.drop cut)
    else v

/-- From the library: `__unguarded_linear_insert`: `val` moves towards the front, past every element that it
precedes.  The elements in front of `val` are given, and returned, nearest first. -/
def __unguarded_linear_insert {β : Type} (comp : β → β → Bool) (val : β) : List β → List β
  | [] => [val]
  | next :: front => if comp val next then next :: __unguarded_linear_insert comp val front
    else val :: next :: front

/-- One turn of the loop of `__insertion_sort`; the sorted elements are held nearest first. -/
def insertion_step {β : Type} (comp : β → β → Bool) (sorted : List β) (val : β) : List β :=
  match sorted.getLast? with
  | some first =>
    if comp val first then sorted ++ [val] else __unguarded_linear_insert comp val sorted
  | none => [val]

/-- From the library: `__insertion_sort(first, last, comp)`. -/
def __insertion_sort {β : Type} (comp : β → β → Bool) : List β → List β
  | [] => []
  | first :: rest => (rest.foldl (insertion_step comp) [first]).reverse

/-- From the library: `__unguarded_insertion_sort(first + n, last, comp)`, where `front` holds the `n` elements
in front and `v` the elements from `first + n` on. -/
def __unguarded_insertion_sort {β : Type} (comp : β → β → Bool) (front v : List β) : List β :=
  (v.foldl (fun sorted val => __unguarded_linear_insert comp val sorted) front.reverse).reverse

/-- From the library: `__final_insertion_sort(first, last, comp)`. -/
def __final_insertion_sort {β : Type} (comp : β → β → Bool) (v : List β) : List β :=
  if _S_threshold < v.length then
    __unguarded_insertion_sort comp (__insertion_sort comp (v.take _S_threshold))
      (v.drop _S_threshold)
  else __insertion_sort comp v

/-- From the library: `std::__lg`: the position of the highest bit. -/
def __lg : Nat → Nat → Nat
  | 0, _ => 0
  | fuel + 1, n => if n < 2 then 0 else __lg fuel (n / 2) + 1

/-- From the library: `__sort(first, last, comp)`. -/
def __sort {β : Type} (comp : β → β → Bool) (v : List β) : List β :=
  if v.isEmpty then v
  else __final_insertion_sort comp (__introsort_loop comp (__lg v.length v.length * 2) v)

/-- The comparison `std::less<>()` on the keys of two tables. -/
def key_lt {α : Type} (a b : Int × α) : Bool := decide (a.1 < b.1)

/-- The rearrangement that `std::sort` of libstdc++ makes of tables with their keys. -/
def libstdcxx_order {α : Type} (ks : List (Int × α)) : List (Int × α) :=
  __sort key_lt ks

/-- From the library: `std::ranges::sort(r, std::less<>(), proj)` of libstdc++.  The keys are read once, before the
rearrangement; the library reads them at each comparison, which gives the same keys, as the
projection does not change what it reads. -/
def libstdcxx_sort {α ε : Type} (proj : α → Except ε Int) (l : List α) : Except ε (List α) :=
  sort_with libstdcxx_order proj l

theorem keyed_ok {α ε : Type} (proj : α → Except ε Int) :
    ∀ (l : List α) (ks : List (Int × α)), keyed proj l = .ok ks →
      ks.map Prod.snd = l ∧ ∀ p ∈ ks, proj p.2 = .ok p.1 := by
  intro l
  induction l with
  | nil =>
    intro ks h
    simp only [keyed, Except.ok.injEq] at h
    subst h
    simp
  | cons x xs ih =>
    intro ks h
    simp only [keyed] at h
    cases hx : proj x with
    | error e => rw [hx] at h; cases h
    | ok k =>
      rw [hx] at h
      cases hxs : keyed proj xs with
      | error e => rw [hxs] at h; cases h
      | ok ks' =>
        rw [hxs] at h
        simp only [Except.ok.injEq] at h
        subst h
        obtain ⟨h1, h2⟩ := ih ks' hxs
        refine ⟨by simp [h1], ?_⟩
        intro p hp
        rcases List.mem_cons.mp hp with rfl | hp
        · exact hx
        · exact h2 p hp

theorem keyed_error {α ε : Type} (proj : α → Except ε Int) :
    ∀ (l : List α) (e : ε), keyed proj l = .error e → ∃ x ∈ l, proj x = .error e := by
  intro l
  induction l with
  | nil => intro e h; simp [keyed] at h
  | cons x xs ih =>
    intro e h
    simp only [keyed] at h
    cases hx : proj x with
    | error e' =>
      rw [hx] at h
      simp only [Except.error.injEq] at h
      subst h
      exact ⟨x, List.mem_cons_self _ _, hx⟩
    | ok k =>
      rw [hx] at h
      cases hxs : keyed proj xs with
      | error e' =>
        rw [hxs] at h
        simp only [Except.error.injEq] at h
        subst h
        obtain ⟨y, hy, hye⟩ := ih e' hxs
        exact ⟨y, List.mem_cons_of_mem _ hy, hye⟩
      | ok ks' => rw [hxs] at h; cases h

theorem keyed_returns {α ε : Type} (proj : α → Except ε Int) :
    ∀ l : List α, (∀ x ∈ l, ∃ k, proj x = .ok k) → ∃ ks, keyed proj l = .ok ks := by
  intro l h
  cases hk : keyed proj l with
  | ok ks => exact ⟨ks, rfl⟩
  | error e =>
    obtain ⟨x, hx, hxe⟩ := keyed_error proj l e hk
    obtain ⟨k, hk'⟩ := h x hx
    rw [hk'] at hxe
    cases hxe

theorem keyed_throws {α ε : Type} (proj : α → Except ε Int) :
    ∀ l : List α, (∃ x ∈ l, ∃ e, proj x = .error e) → ∃ e, keyed proj l = .error e := by
  intro l h
  cases hk : keyed proj l with
  | error e => exact ⟨e, rfl⟩
  | ok ks =>
    obtain ⟨x, hx, e, hxe⟩ := h
    obtain ⟨h1, h2⟩ := keyed_ok proj l ks hk
    rw [← h1] at hx
    obtain ⟨p, hp, rfl⟩ := List.mem_map.mp hx
    rw [h2 p hp] at hxe
    cases hxe

/-- A rearrangement of the keyed elements that puts the keys in non-descending order gives a
sort that meets the contract. -/
def ranges_sort.of_order {α ε : Type} (f : List (Int × α) → List (Int × α))
    (hperm : ∀ ks, (f ks).Perm ks) (hsorted : ∀ ks, (f ks).Pairwise key_le) :
    ranges_sort α ε where
  sort := sort_with f
  returns := by
    intro proj l h
    unfold sort_with
    split
    · exact ⟨l, rfl⟩
    · obtain ⟨ks, hks⟩ := keyed_returns proj l h
      rw [hks]
      exact ⟨_, rfl⟩
  sorted := by
    intro proj l l' h
    unfold sort_with at h
    split at h
    · rename_i hlen
      simp only [Except.ok.injEq] at h
      subst h
      refine ⟨List.Perm.refl _, ?_⟩
      match l, hlen with
      | [], _ => exact List.Pairwise.nil
      | [x], _ => exact List.pairwise_singleton _ _
      | _ :: _ :: _, hlen => simp only [List.length_cons] at hlen; omega
    · cases hk : keyed proj l with
      | error e => rw [hk] at h; cases h
      | ok ks =>
        rw [hk] at h
        simp only [Except.ok.injEq] at h
        subst h
        obtain ⟨h1, h2⟩ := keyed_ok proj l ks hk
        refine ⟨?_, ?_⟩
        · have := (hperm ks).map Prod.snd
          rwa [h1] at this
        · rw [List.pairwise_map]
          refine (hsorted ks).imp_of_mem ?_
          intro a b ha hb hab ka kb hka hkb
          have ha' := h2 a ((hperm ks).subset ha)
          have hb' := h2 b ((hperm ks).subset hb)
          rw [ha'] at hka
          rw [hb'] at hkb
          cases hka
          cases hkb
          exact hab
  rethrows := by
    intro proj l e h
    unfold sort_with at h
    split at h
    · cases h
    · cases hk : keyed proj l with
      | error e' =>
        rw [hk] at h
        simp only [Except.error.injEq] at h
        subst h
        exact keyed_error proj l e' hk
      | ok ks => rw [hk] at h; cases h
  compares_all := by
    intro proj l hlen h
    unfold sort_with
    rw [if_neg (by omega)]
    obtain ⟨e, he⟩ := keyed_throws proj l h
    rw [he]
    exact ⟨e, rfl⟩

/-- A sort that keeps tables with the same key in the order of the input. -/
def insertion_sort (α ε : Type) : ranges_sort α ε :=
  ranges_sort.of_order insertion_order
    (fun ks => List.perm_insertionSort _ ks)
    (fun ks => List.sorted_insertionSort _ ks)

/-- The error of the first shard, in the order of the shard numbers, that failed. -/
def first_failure {ε : Type} : List (Except ε Unit) → Except ε Unit
  | [] => .ok ()
  | .ok _ :: rs => first_failure rs
  | .error e :: _ => .error e

theorem first_failure_ok {ε : Type} :
    ∀ rs : List (Except ε Unit), first_failure rs = .ok () ↔ ∀ r ∈ rs, r = .ok () := by
  intro rs
  induction rs with
  | nil => simp [first_failure]
  | cons r rs ih =>
    cases r with
    | ok u => simp [first_failure, ih]
    | error e => simp [first_failure]

theorem first_failure_error {ε : Type} :
    ∀ (rs : List (Except ε Unit)) (e : ε), first_failure rs = .error e → .error e ∈ rs := by
  intro rs
  induction rs with
  | nil => intro e h; simp [first_failure] at h
  | cons r rs ih =>
    intro e h
    cases r with
    | ok u => exact List.mem_cons_of_mem _ (ih e (by simpa [first_failure] using h))
    | error e' =>
      simp only [first_failure, Except.error.injEq] at h
      subst h
      exact List.mem_cons_self _ _

/-- An `invoke_on_all` that reports the failure of the lowest-numbered failing shard. -/
def in_shard_order (ε : Type) : sharded ε :=
  ⟨first_failure, first_failure_ok, first_failure_error⟩

/-- The schema of an example database, whose tables are named by numbers: the tables that
exist, those whose lookup throws an exception that is not `no_such_column_family`, and those
whose compaction throws. -/
structure example_schema where
  live : List Nat
  unreadable : List Nat
  faulty : List Nat

/-- An example database over a schema.  Its state lists the live disk space of the tables; a
compaction halves the space of its table. -/
def example_db (sch : example_schema) : database (List (Nat × Int)) Nat Nat String where
  find_column_family := fun _ ti =>
    if ti ∈ sch.unreadable then .error (.other "bad metadata")
    else if ti ∈ sch.live then .ok ti
    else .error (.no_such_column_family "no such table")
  live_disk_space_used := fun s t => (s.lookup t).getD 0
  compact_all_sstables := fun t s =>
    if t ∈ sch.faulty then (.error (.other "I/O error"), s)
    else (.ok (), s.map (fun p => if p.1 = t then (p.1, p.2 / 2) else p))

/-- An example database whose state tells whether the disk of the shard is full: every table
exists, and a compaction fails when the disk is full. -/
def full_disk_db : database Bool Nat Nat String where
  find_column_family := fun _ ti => .ok ti
  live_disk_space_used := fun _ _ => 0
  compact_all_sstables := fun _ full =>
    if full then (.error (.other "no space left on device"), full) else (.ok (), full)

/-- An example database whose state lists the tables that exist.  Table 2 is dropped while it is
compacted, and its compaction throws `no_such_column_family`. -/
def racing_db : database (List Nat) Nat Nat String where
  find_column_family := fun s ti =>
    if ti ∈ s then .ok ti else .error (.no_such_column_family "no such table")
  live_disk_space_used := fun _ _ => 0
  compact_all_sstables := fun t s =>
    if t = 2 then (.error (.no_such_column_family "dropped during compaction"), s.erase 2)
    else (.ok (), s)

/-- An example database whose state lists the tables that exist.  Table 2 is dropped while
table 1 is compacted. -/
def dropping_db : database (List Nat) Nat Nat String where
  find_column_family := fun s ti =>
    if ti ∈ s then .ok ti else .error (.no_such_column_family "no such table")
  live_disk_space_used := fun _ _ => 0
  compact_all_sstables := fun t s => (.ok (), if t = 1 then s.erase 2 else s)

/-- Tables 1, 2 and 3 exist and are sound. -/
def three_tables : example_schema := ⟨[1, 2, 3], [], []⟩

/-- Table 2 has been dropped. -/
def second_dropped : example_schema := ⟨[1, 3], [], []⟩

/-- The compaction of table 2 fails. -/
def second_faulty : example_schema := ⟨[1, 2, 3], [], [2]⟩

/-- Tables 1 and 2 have been dropped, table 3 exists. -/
def only_third : example_schema := ⟨[3], [], []⟩

/-- The lookup of table 2 throws an exception that is not `no_such_column_family`. -/
def second_unreadable : example_schema := ⟨[1, 2, 3], [2], []⟩

/-- Table 1 exists, table 2 has been dropped. -/
def only_first : example_schema := ⟨[1], [], []⟩

/-- Table 1 reports a negative live disk space. -/
def negative_size : List (Nat × Int) := [(1, -5)]

/-- Tables 1 to 17 exist and are sound. -/
def seventeen_tables : example_schema :=
  ⟨[1, 2, 3, 4, 5, 6, 7, 8, 9, 10, 11, 12, 13, 14, 15, 16, 17], [], []⟩

/-- Tables 1 and 2 are empty; tables 3 to 17 take 1 to 15 bytes. -/
def seventeen_sizes : List (Nat × Int) :=
  [(1, 0), (2, 0), (3, 1), (4, 2), (5, 3), (6, 4), (7, 5), (8, 6), (9, 7), (10, 8), (11, 9),
    (12, 10), (13, 11), (14, 12), (15, 13), (16, 14), (17, 15)]

/-- The live disk space of tables 1, 2 and 3. -/
def sizes : List (Nat × Int) := [(1, 100), (2, 10), (3, 1000)]

/-- Tables 1 and 2 take the same space. -/
def equal_sizes : List (Nat × Int) := [(1, 10), (2, 10), (3, 1000)]

/-! ### The per-table runner -/

@[simp] theorem after_result {σ τ T ε : Type} (pre : List (event τ T ε)) (o : outcome σ τ T ε) :
    (o.after pre).result = o.result := rfl

@[simp] theorem after_state {σ τ T ε : Type} (pre : List (event τ T ε)) (o : outcome σ τ T ε) :
    (o.after pre).state = o.state := rfl

@[simp] theorem after_trace {σ τ T ε : Type} (pre : List (event τ T ε)) (o : outcome σ τ T ε) :
    (o.after pre).trace = pre ++ o.trace := rfl

theorem after_after {σ τ T ε : Type} (p q : List (event τ T ε)) (o : outcome σ τ T ε) :
    (o.after q).after p = o.after (p ++ q) := by
  simp [outcome.after]

theorem run_cons_of_ok {σ τ T ε : Type} (op : String) (db : database σ τ T ε) (keyspace : String)
    (func : T → σ → Except (thrown ε) Unit × σ) (ti : τ) (rest : List τ) (s : σ) (u : Unit)
    (h : (call_func db func s ti).result = .ok u) :
    run_on_existing_tables op db keyspace func (ti :: rest) s =
      (run_on_existing_tables op db keyspace func rest (call_func db func s ti).state).after
        (event.debug op keyspace ti :: (call_func db func s ti).trace) := by
  simp only [run_on_existing_tables, h]

theorem run_cons_of_no_such {σ τ T ε : Type} (op : String) (db : database σ τ T ε)
    (keyspace : String) (func : T → σ → Except (thrown ε) Unit × σ) (ti : τ) (rest : List τ)
    (s : σ) (what : String)
    (h : (call_func db func s ti).result = .error (.no_such_column_family what)) :
    run_on_existing_tables op db keyspace func (ti :: rest) s =
      (run_on_existing_tables op db keyspace func rest (call_func db func s ti).state).after
        (event.debug op keyspace ti :: (call_func db func s ti).trace ++
          [event.warn op keyspace ti what]) := by
  simp only [run_on_existing_tables, h]

theorem run_cons_of_other {σ τ T ε : Type} (op : String) (db : database σ τ T ε)
    (keyspace : String) (func : T → σ → Except (thrown ε) Unit × σ) (ti : τ) (rest : List τ)
    (s : σ) (e : ε) (h : (call_func db func s ti).result = .error (.other e)) :
    run_on_existing_tables op db keyspace func (ti :: rest) s =
      ⟨.error (.other e), (call_func db func s ti).state,
        event.debug op keyspace ti :: (call_func db func s ti).trace ++
          [event.error op keyspace ti (.other e)]⟩ := by
  simp only [run_on_existing_tables, h]

theorem after_nil {σ τ T ε : Type} (o : outcome σ τ T ε) : o.after [] = o := by
  cases o; rfl

theorem run_append_of_ok {σ τ T ε : Type} (op : String) (db : database σ τ T ε)
    (keyspace : String) (func : T → σ → Except (thrown ε) Unit × σ) (l₂ : List τ) :
    ∀ (l₁ : List τ) (s : σ) (u : Unit),
      (run_on_existing_tables op db keyspace func l₁ s).result = .ok u →
      run_on_existing_tables op db keyspace func (l₁ ++ l₂) s =
        (run_on_existing_tables op db keyspace func l₂
          (run_on_existing_tables op db keyspace func l₁ s).state).after
          (run_on_existing_tables op db keyspace func l₁ s).trace := by
  intro l₁
  induction l₁ with
  | nil => intro s u _; simp [run_on_existing_tables, after_nil]
  | cons ti rest ih =>
    intro s u h
    rcases hc : (call_func db func s ti).result with (_ | w) | u'
    · rw [run_cons_of_no_such op db keyspace func ti rest s _ hc] at h ⊢
      rw [List.cons_append, run_cons_of_no_such op db keyspace func ti _ s _ hc]
      rw [ih _ u (by simpa using h)]
      simp [after_after]
    · rw [run_cons_of_other op db keyspace func ti rest s _ hc] at h
      cases h
    · rw [run_cons_of_ok op db keyspace func ti rest s _ hc] at h ⊢
      rw [List.cons_append, run_cons_of_ok op db keyspace func ti _ s _ hc]
      rw [ih _ u (by simpa using h)]
      simp [after_after]

theorem run_append_of_error {σ τ T ε : Type} (op : String) (db : database σ τ T ε)
    (keyspace : String) (func : T → σ → Except (thrown ε) Unit × σ) (l₂ : List τ) :
    ∀ (l₁ : List τ) (s : σ) (e : thrown ε),
      (run_on_existing_tables op db keyspace func l₁ s).result = .error e →
      run_on_existing_tables op db keyspace func (l₁ ++ l₂) s =
        run_on_existing_tables op db keyspace func l₁ s := by
  intro l₁
  induction l₁ with
  | nil => intro s e h; simp [run_on_existing_tables] at h
  | cons ti rest ih =>
    intro s e h
    rcases hc : (call_func db func s ti).result with (_ | w) | u'
    · rw [run_cons_of_no_such op db keyspace func ti rest s _ hc] at h ⊢
      rw [List.cons_append, run_cons_of_no_such op db keyspace func ti _ s _ hc]
      rw [ih _ e (by simpa using h)]
    · rw [List.cons_append, run_cons_of_other op db keyspace func ti rest s _ hc,
        run_cons_of_other op db keyspace func ti _ s _ hc]
    · rw [run_cons_of_ok op db keyspace func ti rest s _ hc] at h ⊢
      rw [List.cons_append, run_cons_of_ok op db keyspace func ti _ s _ hc]
      rw [ih _ e (by simpa using h)]

theorem table_error_eq_some {σ τ T ε : Type} (db : database σ τ T ε)
    (func : T → σ → Except (thrown ε) Unit × σ) (s : σ) (ti : τ) (x : ε) :
    table_error db func s ti = some x ↔ (call_func db func s ti).result = .error (.other x) := by
  unfold table_error
  rcases (call_func db func s ti).result with (_ | w) | u <;> simp

theorem run_fails_iff_split {σ τ T ε : Type} (op : String) (db : database σ τ T ε)
    (keyspace : String) (func : T → σ → Except (thrown ε) Unit × σ) :
    ∀ (l : List τ) (s : σ) (e : thrown ε),
      (run_on_existing_tables op db keyspace func l s).result = .error e ↔
        ∃ pre ti post x, l = pre ++ ti :: post ∧
          (run_on_existing_tables op db keyspace func pre s).result = .ok () ∧
          table_error db func (run_on_existing_tables op db keyspace func pre s).state ti
            = some x ∧ e = .other x := by
  intro l s e
  constructor
  · induction l generalizing s with
    | nil => intro h; simp [run_on_existing_tables] at h
    | cons ti rest ih =>
      intro h
      rcases hc : (call_func db func s ti).result with (_ | w) | u'
      · rw [run_cons_of_no_such op db keyspace func ti rest s _ hc] at h
        obtain ⟨pre, tj, post, x, h1, h2, h3, h4⟩ := ih _ (by simpa using h)
        refine ⟨ti :: pre, tj, post, x, by simp [h1], ?_, ?_, h4⟩
        · rw [run_cons_of_no_such op db keyspace func ti pre s _ hc]; simpa using h2
        · rw [run_cons_of_no_such op db keyspace func ti pre s _ hc]; simpa using h3
      · rw [run_cons_of_other op db keyspace func ti rest s _ hc] at h
        simp only [Except.error.injEq] at h
        refine ⟨[], ti, rest, w, rfl, rfl, ?_, h.symm⟩
        exact (table_error_eq_some db func s ti w).mpr hc
      · rw [run_cons_of_ok op db keyspace func ti rest s _ hc] at h
        obtain ⟨pre, tj, post, x, h1, h2, h3, h4⟩ := ih _ (by simpa using h)
        refine ⟨ti :: pre, tj, post, x, by simp [h1], ?_, ?_, h4⟩
        · rw [run_cons_of_ok op db keyspace func ti pre s _ hc]; simpa using h2
        · rw [run_cons_of_ok op db keyspace func ti pre s _ hc]; simpa using h3
  · rintro ⟨pre, ti, post, x, rfl, h2, h3, rfl⟩
    rw [run_append_of_ok op db keyspace func _ pre s () h2]
    rw [run_cons_of_other op db keyspace func ti post _ x
      ((table_error_eq_some db func _ ti x).mp h3)]
    rfl

theorem run_ok_iff {σ τ T ε : Type} (op : String) (db : database σ τ T ε)
    (keyspace : String) (func : T → σ → Except (thrown ε) Unit × σ) (l : List τ) (s : σ) :
    (run_on_existing_tables op db keyspace func l s).result = .ok () ↔
      ∀ pre ti post, l = pre ++ ti :: post →
        table_error db func (run_on_existing_tables op db keyspace func pre s).state ti
          = none := by
  constructor
  · rintro h pre ti post rfl
    rcases hp : (run_on_existing_tables op db keyspace func pre s).result with e | u
    · rw [run_append_of_error op db keyspace func _ pre s e hp, hp] at h
      cases h
    · rw [run_append_of_ok op db keyspace func _ pre s u hp] at h
      cases hx : table_error db func
        (run_on_existing_tables op db keyspace func pre s).state ti with
      | none => rfl
      | some x =>
        rw [run_cons_of_other op db keyspace func ti post _ x
          ((table_error_eq_some db func _ ti x).mp hx)] at h
        cases h
  · intro h
    rcases hr : (run_on_existing_tables op db keyspace func l s).result with e | u
    · obtain ⟨pre, ti, post, x, h1, _, h3, _⟩ :=
        (run_fails_iff_split op db keyspace func l s e).mp hr
      rw [h pre ti post h1] at h3
      cases h3
    · rfl

theorem attempted_append {τ T ε : Type} (a b : List (event τ T ε)) :
    attempted (a ++ b) = attempted a ++ attempted b := by
  induction a with
  | nil => rfl
  | cons e a ih => cases e <;> simp [attempted, ih]

theorem invocations_append {τ T ε : Type} (a b : List (event τ T ε)) :
    invocations (a ++ b) = invocations a ++ invocations b := by
  induction a with
  | nil => rfl
  | cons e a ih => cases e <;> simp [invocations, ih]

theorem call_func_trace {σ τ T ε : Type} (db : database σ τ T ε)
    (func : T → σ → Except (thrown ε) Unit × σ) (s : σ) (ti : τ) :
    attempted (call_func db func s ti).trace = [] ∧
      invocations (call_func db func s ti).trace = (resolve db s ti).toList := by
  unfold call_func resolve
  cases db.find_column_family s ti <;> simp [attempted, invocations]

/-- The events of one iteration: the runner starts on the table, and calls the per-table
operation when the table resolves. -/
theorem run_singleton_trace {σ τ T ε : Type} (op : String) (db : database σ τ T ε)
    (keyspace : String) (func : T → σ → Except (thrown ε) Unit × σ) (s : σ) (ti : τ) :
    attempted (run_on_existing_tables op db keyspace func [ti] s).trace = [ti] ∧
      invocations (run_on_existing_tables op db keyspace func [ti] s).trace
        = (resolve db s ti).toList := by
  obtain ⟨h1, h2⟩ := call_func_trace db func s ti
  rcases hc : (call_func db func s ti).result with (_ | w) | u'
  · rw [run_cons_of_no_such op db keyspace func ti [] s _ hc]
    simp [run_on_existing_tables, attempted, invocations, attempted_append, invocations_append,
      h1, h2]
  · rw [run_cons_of_other op db keyspace func ti [] s _ hc]
    simp [attempted, invocations, attempted_append, invocations_append, h1, h2]
  · rw [run_cons_of_ok op db keyspace func ti [] s _ hc]
    simp [run_on_existing_tables, attempted, invocations, attempted_append, invocations_append,
      h1, h2]

theorem run_cons_state {σ τ T ε : Type} (op : String) (db : database σ τ T ε)
    (keyspace : String) (func : T → σ → Except (thrown ε) Unit × σ) (s : σ) (ti : τ)
    (rest : List τ) (h : table_error db func s ti = none) :
    ∃ pre, run_on_existing_tables op db keyspace func (ti :: rest) s =
      (run_on_existing_tables op db keyspace func rest (call_func db func s ti).state).after pre
      ∧ attempted pre = [ti] ∧ invocations pre = (resolve db s ti).toList := by
  obtain ⟨h1, h2⟩ := call_func_trace db func s ti
  rcases hc : (call_func db func s ti).result with (_ | w) | u'
  · exact ⟨_, run_cons_of_no_such op db keyspace func ti rest s _ hc,
      by simp [attempted, attempted_append, h1],
      by simp [invocations, invocations_append, h2]⟩
  · rw [(table_error_eq_some db func s ti w).mpr hc] at h
    cases h
  · exact ⟨_, run_cons_of_ok op db keyspace func ti rest s _ hc,
      by simp [attempted, h1], by simp [invocations, h2]⟩


/-- C1.  The runner succeeds exactly when no table of the list, tried in the state in which the
runner reaches it, produces an exception other than `no_such_column_family`, be it from the lookup
or from the per-table operation.  It fails with `e` exactly when `e` is such an exception,
produced by a table before which no table of the list produced one: the first in list order. -/
theorem run_on_existing_tables_fails_with_first_error {σ τ T ε : Type} (op : String)
    (db : database σ τ T ε) (keyspace : String) (func : T → σ → Except (thrown ε) Unit × σ)
    (local_tables : List τ) (s : σ) :
    ((run_on_existing_tables op db keyspace func local_tables s).result = .ok () ↔
      ∀ pre ti post, local_tables = pre ++ ti :: post →
        table_error db func (run_on_existing_tables op db keyspace func pre s).state ti = none) ∧
    ∀ e, (run_on_existing_tables op db keyspace func local_tables s).result = .error e ↔
      ∃ pre ti post x, local_tables = pre ++ ti :: post ∧
        (∀ p tj q, pre = p ++ tj :: q →
          table_error db func (run_on_existing_tables op db keyspace func p s).state tj = none) ∧
        table_error db func (run_on_existing_tables op db keyspace func pre s).state ti = some x ∧
        e = .other x := by
  refine ⟨run_ok_iff op db keyspace func local_tables s, fun e => ?_⟩
  rw [run_fails_iff_split op db keyspace func local_tables s e]
  constructor
  · rintro ⟨pre, ti, post, x, h1, h2, h3, h4⟩
    exact ⟨pre, ti, post, x, h1, (run_ok_iff op db keyspace func pre s).mp h2, h3, h4⟩
  · rintro ⟨pre, ti, post, x, h1, h2, h3, h4⟩
    exact ⟨pre, ti, post, x, h1, (run_ok_iff op db keyspace func pre s).mpr h2, h3, h4⟩

/-- C4.  When no table before `ti` produces an exception other than `no_such_column_family` and
`ti` does, the tables after `ti` play no part: the run is the run on the list that ends with
`ti`; the tables started are those up to `ti`; and the calls are those of the run on the tables
before `ti`, followed by the call on `ti`, should it be the operation that failed. -/
theorem run_on_existing_tables_stops_at_first_error {σ τ T ε : Type} (op : String)
    (db : database σ τ T ε) (keyspace : String) (func : T → σ → Except (thrown ε) Unit × σ)
    (pre : List τ) (ti : τ) (post : List τ) (s : σ) (x : ε)
    (hpre : ∀ p tj q, pre = p ++ tj :: q →
      table_error db func (run_on_existing_tables op db keyspace func p s).state tj = none)
    (hfail : table_error db func (run_on_existing_tables op db keyspace func pre s).state ti
      = some x) :
    run_on_existing_tables op db keyspace func (pre ++ ti :: post) s =
      run_on_existing_tables op db keyspace func (pre ++ [ti]) s ∧
    (run_on_existing_tables op db keyspace func (pre ++ ti :: post) s).result
      = .error (.other x) ∧
    attempted (run_on_existing_tables op db keyspace func (pre ++ ti :: post) s).trace
      = pre ++ [ti] ∧
    invocations (run_on_existing_tables op db keyspace func (pre ++ ti :: post) s).trace =
      invocations (run_on_existing_tables op db keyspace func pre s).trace ++
        (resolve db (run_on_existing_tables op db keyspace func pre s).state ti).toList := by
  have hok := (run_ok_iff op db keyspace func pre s).mpr hpre
  have hc := (table_error_eq_some db func _ ti x).mp hfail
  have hrun : ∀ q, run_on_existing_tables op db keyspace func (pre ++ ti :: q) s =
      (run_on_existing_tables op db keyspace func [ti]
        (run_on_existing_tables op db keyspace func pre s).state).after
        (run_on_existing_tables op db keyspace func pre s).trace := by
    intro q
    rw [run_append_of_ok op db keyspace func _ pre s () hok,
      run_cons_of_other op db keyspace func ti q _ x hc,
      run_cons_of_other op db keyspace func ti [] _ x hc]
  have hatt : ∀ (l : List τ) (s' : σ),
      (run_on_existing_tables op db keyspace func l s').result = .ok () →
      attempted (run_on_existing_tables op db keyspace func l s').trace = l := by
    intro l
    induction l with
    | nil => intro _ _; rfl
    | cons tj rest ih =>
      intro s' h
      have hn := (run_ok_iff op db keyspace func (tj :: rest) s').mp h [] tj rest rfl
      obtain ⟨e, h1, h2, _⟩ := run_cons_state op db keyspace func s' tj rest hn
      rw [h1] at h ⊢
      rw [after_trace, attempted_append, h2, ih _ (by simpa using h)]
      rfl
  refine ⟨by rw [hrun post, hrun []], ?_, ?_, ?_⟩
  · rw [hrun post, after_result, run_cons_of_other op db keyspace func ti [] _ x hc]
  · rw [hrun post, after_trace, attempted_append, hatt pre s hok,
      (run_singleton_trace op db keyspace func _ ti).1]
  · rw [hrun post, after_trace, invocations_append,
      (run_singleton_trace op db keyspace func _ ti).2]

/-- The third end-to-end scenario: the compaction of the second table of three fails; the first
two tables are started and compacted, the third is not, and the runner fails with that error. -/
theorem run_on_existing_tables_stops_at_first_error_witness :
    (run_on_existing_tables "force_keyspace_compaction" (example_db second_faulty) "ks"
      (example_db second_faulty).compact_all_sstables [1, 2, 3] sizes).result
      = .error (.other "I/O error") ∧
    attempted (run_on_existing_tables "force_keyspace_compaction" (example_db second_faulty) "ks"
      (example_db second_faulty).compact_all_sstables [1, 2, 3] sizes).trace = [1, 2] ∧
    invocations (run_on_existing_tables "force_keyspace_compaction" (example_db second_faulty)
      "ks" (example_db second_faulty).compact_all_sstables [1, 2, 3] sizes).trace
      = [(1, 1), (2, 2)] := by
  have h := run_on_existing_tables_stops_at_first_error "force_keyspace_compaction"
    (example_db second_faulty) "ks" (example_db second_faulty).compact_all_sstables
    [1] 2 [3] sizes "I/O error"
    ((run_ok_iff _ _ _ _ _ _).mp (by decide)) (by decide)
  exact ⟨h.2.1, h.2.2.1, h.2.2.2.trans (by decide)⟩

/-! ### The shard worker -/

/-- The tables the per-table operation is called on are, in order, among the tables of the list. -/
theorem invocations_sublist {σ τ T ε : Type} (op : String) (db : database σ τ T ε)
    (keyspace : String) (func : T → σ → Except (thrown ε) Unit × σ) :
    ∀ (l : List τ) (s : σ),
      ((invocations (run_on_existing_tables op db keyspace func l s).trace).map Prod.fst).Sublist
        l := by
  intro l
  induction l with
  | nil => intro s; exact List.Sublist.slnil
  | cons ti rest ih =>
    intro s
    have hcall : ((invocations (call_func db func s ti).trace).map Prod.fst).Sublist [ti] := by
      rw [(call_func_trace db func s ti).2]
      unfold resolve
      cases db.find_column_family s ti <;> simp
    rcases hc : (call_func db func s ti).result with (_ | w) | u'
    · rw [run_cons_of_no_such op db keyspace func ti rest s _ hc]
      simp only [after_trace, invocations_append, List.map_append]
      have := (hcall.append (ih (call_func db func s ti).state))
      simpa [invocations] using this
    · rw [run_cons_of_other op db keyspace func ti rest s _ hc]
      simp only [invocations_append, List.map_append]
      have := hcall.append (List.nil_sublist rest)
      simpa [invocations] using this
    · rw [run_cons_of_ok op db keyspace func ti rest s _ hc]
      simp only [after_trace, invocations_append, List.map_append]
      have := (hcall.append (ih (call_func db func s ti).state))
      simpa [invocations] using this

theorem sort_projection_of_initial_size {σ τ T ε : Type} (db : database σ τ T ε) (s : σ)
    (ti : τ) (k : Int) (h : initial_size db s ti = some k) :
    sort_projection db s ti = .ok k := by
  unfold initial_size at h
  unfold sort_projection
  cases hf : db.find_column_family s ti with
  | error e => rw [hf] at h; cases h
  | ok t =>
    rw [hf] at h
    simp only [Option.some.injEq] at h
    simp [h]

/-- C3.  In a run of the shard worker that starts in state `s`, the calls to
`compact_all_sstables` on tables that existed in `s` come in non-decreasing order of the live
disk space these tables had in `s`, whatever the compactions do to the state. -/
theorem shard_run_compacts_smaller_tables_first {σ ι τ T ε : Type}
    (std : ranges_sort τ (thrown ε)) (db : database σ τ T ε)
    (task : shard_major_keyspace_compaction_task_impl ι τ) (s : σ) :
    ((invocations (task.run std db s).trace).filterMap
      (fun call => initial_size db s call.1)).Pairwise (fun a b => a ≤ b) := by
  unfold shard_major_keyspace_compaction_task_impl.run
  cases hs : std.sort (sort_projection db s) task._local_tables with
  | error e => exact List.Pairwise.nil
  | ok sorted =>
    simp only
    have hsub := invocations_sublist "force_keyspace_compaction" db task.keyspace
      db.compact_all_sstables sorted s
    have hsorted := (std.sorted _ _ _ hs).2.sublist hsub
    rw [List.pairwise_map] at hsorted
    rw [List.pairwise_filterMap]
    refine hsorted.imp ?_
    intro a b hab ka hka kb hkb
    exact hab ka kb (sort_projection_of_initial_size db s a.1 ka hka)
      (sort_projection_of_initial_size db s b.1 kb hkb)

/-- The label and the keyspace name are only logged: they bear on neither the result, nor the
state, nor the calls. -/
theorem run_labels {σ τ T ε : Type} (op op' : String) (db : database σ τ T ε)
    (keyspace keyspace' : String) (func : T → σ → Except (thrown ε) Unit × σ) :
    ∀ (l : List τ) (s : σ),
      (run_on_existing_tables op db keyspace func l s).result =
        (run_on_existing_tables op' db keyspace' func l s).result ∧
      (run_on_existing_tables op db keyspace func l s).state =
        (run_on_existing_tables op' db keyspace' func l s).state ∧
      invocations (run_on_existing_tables op db keyspace func l s).trace =
        invocations (run_on_existing_tables op' db keyspace' func l s).trace := by
  intro l
  induction l with
  | nil => intro s; exact ⟨rfl, rfl, rfl⟩
  | cons ti rest ih =>
    intro s
    obtain ⟨h1, h2, h3⟩ := ih (call_func db func s ti).state
    rcases hc : (call_func db func s ti).result with (_ | w) | u'
    · rw [run_cons_of_no_such op db keyspace func ti rest s _ hc,
        run_cons_of_no_such op' db keyspace' func ti rest s _ hc]
      refine ⟨by simp [h1], by simp [h2], ?_⟩
      simp [invocations_append, invocations, h3]
    · rw [run_cons_of_other op db keyspace func ti rest s _ hc,
        run_cons_of_other op' db keyspace' func ti rest s _ hc]
      refine ⟨rfl, rfl, ?_⟩
      simp [invocations_append, invocations]
    · rw [run_cons_of_ok op db keyspace func ti rest s _ hc,
        run_cons_of_ok op' db keyspace' func ti rest s _ hc]
      refine ⟨by simp [h1], by simp [h2], ?_⟩
      simp [invocations_append, invocations, h3]

/-- The first end-to-end scenario: tables 1, 2, 3 of sizes 100, 10, 1000 are compacted in the
order 2, 1, 3, whichever sort the library provides, and the worker succeeds. -/
theorem shard_run_happy_path (std : ranges_sort Nat (thrown String))
    (task : shard_major_keyspace_compaction_task_impl Nat Nat)
    (htask : task._local_tables = [1, 2, 3]) :
    (task.run std (example_db three_tables) sizes).result = .ok () ∧
    invocations (task.run std (example_db three_tables) sizes).trace
      = [(2, 2), (1, 1), (3, 3)] := by
  unfold shard_major_keyspace_compaction_task_impl.run
  rw [htask]
  obtain ⟨sorted, hs⟩ := std.returns (sort_projection (example_db three_tables) sizes) [1, 2, 3]
    (by
      intro x hx
      fin_cases hx
      · exact ⟨100, by decide⟩
      · exact ⟨10, by decide⟩
      · exact ⟨1000, by decide⟩)
  obtain ⟨hperm, hsorted⟩ := std.sorted _ _ _ hs
  have hkeys : sorted.Pairwise (fun a b => a ∈ [1, 2, 3] → b ∈ [1, 2, 3] →
      (sizes.lookup a).getD 0 ≤ (sizes.lookup b).getD 0) := by
    refine hsorted.imp ?_
    intro a b hab ha hb
    refine hab _ _ ?_ ?_
    · fin_cases ha <;> decide
    · fin_cases hb <;> decide
  have hmem := List.mem_permutations.mpr hperm
  have hcases : sorted = [2, 1, 3] := by
    simp only [List.permutations, List.permutationsAux, List.permutationsAux.rec,
      List.permutationsAux2, List.foldr, List.map, List.mem_cons, List.mem_singleton,
      List.append_nil, List.nil_append, List.cons_append, id, List.not_mem_nil, or_false,
      List.mem_append] at hmem
    rcases hmem with h | h | h | h | h | h <;> subst h <;> first
      | rfl
      | (exfalso; revert hkeys; decide)
  rw [hs, hcases]
  simp only
  obtain ⟨h1, _, h3⟩ := run_labels "force_keyspace_compaction" "" (example_db three_tables)
    task.keyspace "" (example_db three_tables).compact_all_sstables [2, 1, 3] sizes
  rw [h1, h3]
  decide


/-- C8, amended.  A table whose lookup throws `no_such_column_family` has sort key `-1`.  When no
table takes a negative space on disk, no table whose lookup succeeds comes, in the sorted list, before
a table whose lookup throws `no_such_column_family`. -/
theorem dropped_tables_sort_first {σ τ T ε : Type} (std : ranges_sort τ (thrown ε))
    (db : database σ τ T ε) (s : σ) (local_tables sorted : List τ)
    (hsize : ∀ ti ∈ local_tables, ∀ t, db.find_column_family s ti = .ok t →
      0 ≤ db.live_disk_space_used s t)
    (hsort : std.sort (sort_projection db s) local_tables = .ok sorted) :
    (∀ ti w, db.find_column_family s ti = .error (.no_such_column_family w) →
      sort_projection db s ti = .ok (-1)) ∧
    sorted.Pairwise (fun a b =>
      ¬ ((∃ t, db.find_column_family s a = .ok t) ∧
        ∃ w, db.find_column_family s b = .error (.no_such_column_family w))) := by
  have hkey : ∀ ti w, db.find_column_family s ti = .error (.no_such_column_family w) →
      sort_projection db s ti = .ok (-1) := by
    intro ti w h
    simp [sort_projection, h]
  refine ⟨hkey, ?_⟩
  obtain ⟨hperm, hsorted⟩ := std.sorted _ _ _ hsort
  refine hsorted.imp_of_mem ?_
  rintro a b ha _ hab ⟨⟨t, ht⟩, w, hw⟩
  have h := hab (db.live_disk_space_used s t) (-1) (by simp [sort_projection, ht]) (hkey b w hw)
  have h0 := hsize a (hperm.subset ha) t ht
  omega

/-- Table 2 has been dropped: it gets the key `-1` and comes first in the sorted list. -/
theorem dropped_tables_sort_first_witness :
    sort_projection (example_db second_dropped) sizes 2 = .ok (-1) ∧
    [2, 1, 3].Pairwise (fun a b =>
      ¬ ((∃ t, (example_db second_dropped).find_column_family sizes a = .ok t) ∧
        ∃ w, (example_db second_dropped).find_column_family sizes b
          = .error (.no_such_column_family w))) := by
  have h := dropped_tables_sort_first (insertion_sort Nat (thrown String))
    (example_db second_dropped) sizes [1, 2, 3] [2, 1, 3]
    (by
      intro ti hti t ht
      fin_cases hti
      · have : t = 1 := by simpa [example_db, second_dropped] using ht.symm
        subst this; decide
      · simp [example_db, second_dropped] at ht
      · have : t = 3 := by simpa [example_db, second_dropped] using ht.symm
        subst this; decide)
    (by decide)
  exact ⟨h.1 2 "no such table" (by decide), h.2⟩


/-! ### The keyspace coordinator -/

theorem run_shards {σ ι τ T ε : Type} (_db : sharded (thrown ε))
    (std : ranges_sort τ (thrown ε)) (db : database σ τ T ε)
    (self : major_keyspace_compaction_task_impl ι τ) (smp : Nat) (states : Nat → σ) :
    (self.run _db std db smp states).shards =
      (List.range smp).map (fun shard => on_shard std db self shard (states shard)) := rfl

theorem run_result {σ ι τ T ε : Type} (_db : sharded (thrown ε))
    (std : ranges_sort τ (thrown ε)) (db : database σ τ T ε)
    (self : major_keyspace_compaction_task_impl ι τ) (smp : Nat) (states : Nat → σ) :
    (self.run _db std db smp states).result =
      _db.invoke_on_all ((List.range smp).map
        (fun shard => (on_shard std db self shard (states shard)).2.result)) := by
  simp [major_keyspace_compaction_task_impl.run, Function.comp_def]

/-- C6.  The coordinator succeeds exactly when the worker of every shard succeeds.  When the
worker of one shard fails and the workers of all other shards succeed, the coordinator fails with
the error of that worker. -/
theorem coordinator_result {σ ι τ T ε : Type} (_db : sharded (thrown ε))
    (std : ranges_sort τ (thrown ε)) (db : database σ τ T ε)
    (self : major_keyspace_compaction_task_impl ι τ) (smp : Nat) (states : Nat → σ) :
    ((self.run _db std db smp states).result = .ok () ↔
      ∀ shard, shard < smp →
        ((on_shard std db self shard (states shard)).1.run std db (states shard)).result
          = .ok ()) ∧
    ∀ shard e, shard < smp →
      ((on_shard std db self shard (states shard)).1.run std db (states shard)).result
        = .error e →
      (∀ other, other < smp → other ≠ shard →
        ((on_shard std db self other (states other)).1.run std db (states other)).result
          = .ok ()) →
      (self.run _db std db smp states).result = .error e := by
  have hiff : (self.run _db std db smp states).result = .ok () ↔
      ∀ shard, shard < smp →
        ((on_shard std db self shard (states shard)).1.run std db (states shard)).result
          = .ok () := by
    rw [run_result, _db.succeeds]
    constructor
    · intro h shard hlt
      exact h _ (List.mem_map.mpr ⟨shard, List.mem_range.mpr hlt, rfl⟩)
    · intro h r hr
      obtain ⟨shard, hshard, rfl⟩ := List.mem_map.mp hr
      exact h shard (List.mem_range.mp hshard)
  refine ⟨hiff, ?_⟩
  intro shard e hlt hfail hrest
  rcases hres : (self.run _db std db smp states).result with e' | u
  · rw [run_result] at hres
    obtain ⟨other, hother, hr⟩ := List.mem_map.mp (_db.fails _ e' hres)
    by_cases hne : other = shard
    · subst hne
      have : (on_shard std db self other (states other)).2.result = .error e := hfail
      rw [this] at hr
      rw [hr]
    · have : (on_shard std db self other (states other)).2.result = .ok () :=
        hrest other (List.mem_range.mp hother) hne
      rw [this] at hr
      cases hr
  · have := hiff.mp hres shard hlt
    rw [this] at hfail
    cases hfail

/-- The fifth end-to-end scenario: of two shards the second fails, for want of space, and the
coordinator fails with the error of the second shard. -/
theorem coordinator_result_witness :
    ((⟨⟨7, 0, "ks"⟩, [1, 2]⟩ : major_keyspace_compaction_task_impl Nat Nat).run
      (in_shard_order (thrown String)) (insertion_sort Nat (thrown String))
      full_disk_db 2 (fun shard => decide (shard = 1))).result
      = .error (.other "no space left on device") :=
  (coordinator_result (in_shard_order (thrown String)) (insertion_sort Nat (thrown String))
    full_disk_db ⟨⟨7, 0, "ks"⟩, [1, 2]⟩ 2 (fun shard => decide (shard = 1))).2
    1 (.other "no space left on device") (by decide) (by decide)
    (by
      intro other hlt hne
      have : other = 0 := by omega
      subst this
      decide)

/-- C9.  The workers the coordinator creates are one for each shard, in the order of the shard
numbers; each has the coordinator's `(id, shard)` as its parent and the coordinator's keyspace as
its keyspace. -/
theorem coordinator_creates_one_worker_per_shard {σ ι τ T ε : Type} (_db : sharded (thrown ε))
    (std : ranges_sort τ (thrown ε)) (db : database σ τ T ε)
    (self : major_keyspace_compaction_task_impl ι τ) (smp : Nat) (states : Nat → σ) :
    (self.run _db std db smp states).shards.map (fun r => r.1.shard) = List.range smp ∧
    ∀ r ∈ (self.run _db std db smp states).shards,
      r.1.parent_info = ⟨self._status.id, self._status.shard⟩ ∧
      r.1.keyspace = self._status.keyspace ∧
      r.2 = r.1.run std db (states r.1.shard) := by
  rw [run_shards]
  constructor
  · rw [List.map_map]
    exact (List.map_congr_left (fun shard _ => rfl)).trans (List.map_id _)
  · intro r hr
    obtain ⟨shard, _, rfl⟩ := List.mem_map.mp hr
    exact ⟨rfl, rfl, rfl⟩

/-- On two shards the coordinator creates two workers, for shard 0 and for shard 1. -/
theorem coordinator_creates_one_worker_per_shard_witness :
    ((⟨⟨7, 0, "ks"⟩, [1, 2]⟩ : major_keyspace_compaction_task_impl Nat Nat).run
      (in_shard_order (thrown String)) (insertion_sort Nat (thrown String))
      full_disk_db 2 (fun shard => decide (shard = 1))).shards.map (fun r => r.1)
      = [⟨⟨7, 0⟩, "ks", 7, 0, [1, 2]⟩, ⟨⟨7, 0⟩, "ks", 7, 1, [1, 2]⟩] ∧
    ((⟨⟨7, 0, "ks"⟩, [1, 2]⟩ : major_keyspace_compaction_task_impl Nat Nat).run
      (in_shard_order (thrown String)) (insertion_sort Nat (thrown String))
      full_disk_db 2 (fun shard => decide (shard = 1))).shards.map (fun r => r.1.shard)
      = List.range 2 :=
  ⟨by decide, (coordinator_creates_one_worker_per_shard (in_shard_order (thrown String))
    (insertion_sort Nat (thrown String)) full_disk_db ⟨⟨7, 0, "ks"⟩, [1, 2]⟩ 2
    (fun shard => decide (shard = 1))).1⟩

/-- C10.  Every shard worker reports itself as internal. -/
theorem shard_worker_is_internal {ι τ : Type}
    (task : shard_major_keyspace_compaction_task_impl ι τ) :
    task.is_internal = is_internal.yes := rfl


/-! ### The sort step of the shard worker -/

theorem sort_projection_returns {σ τ T ε : Type} (db : database σ τ T ε) (s : σ) (ti : τ)
    (h : ∀ e, db.find_column_family s ti ≠ .error (.other e)) :
    ∃ k, sort_projection db s ti = .ok k := by
  unfold sort_projection
  cases hf : db.find_column_family s ti with
  | ok t => exact ⟨_, rfl⟩
  | error e =>
    cases e with
    | no_such_column_family w => exact ⟨-1, rfl⟩
    | other e => exact absurd hf (h e)

theorem sort_projection_throws {σ τ T ε : Type} (db : database σ τ T ε) (s : σ) (ti : τ)
    (e : thrown ε) (h : sort_projection db s ti = .error e) :
    db.find_column_family s ti = .error e ∧ ∃ x, e = .other x := by
  unfold sort_projection at h
  cases hf : db.find_column_family s ti with
  | ok t => rw [hf] at h; cases h
  | error e' =>
    rw [hf] at h
    cases e' with
    | no_such_column_family w => cases h
    | other x =>
      simp only [Except.error.injEq] at h
      subst h
      exact ⟨rfl, x, rfl⟩

/-- Whichever sort the library provides: when the list has two or more tables and the lookup of
one of them throws an exception that is not `no_such_column_family`, the worker fails with such an
exception of a listed table, and the runner is not called. -/
theorem shard_run_fails_when_lookup_throws {σ ι τ T ε : Type}
    (std : ranges_sort τ (thrown ε)) (db : database σ τ T ε)
    (task : shard_major_keyspace_compaction_task_impl ι τ) (s : σ)
    (hlen : 2 ≤ task._local_tables.length)
    (hthrows : ∃ ti ∈ task._local_tables, ∃ x, db.find_column_family s ti = .error (.other x)) :
    ∃ ti ∈ task._local_tables, ∃ x, db.find_column_family s ti = .error (.other x) ∧
      (task.run std db s).result = .error (.other x) ∧ (task.run std db s).trace = [] := by
  obtain ⟨ti, hti, x, hx⟩ := hthrows
  obtain ⟨e, he⟩ := std.compares_all (sort_projection db s) task._local_tables hlen
    ⟨ti, hti, .other x, by simp [sort_projection, hx]⟩
  obtain ⟨tj, htj, hproj⟩ := std.rethrows _ _ _ he
  obtain ⟨hfind, y, rfl⟩ := sort_projection_throws db s tj e hproj
  refine ⟨tj, htj, y, hfind, ?_, ?_⟩ <;>
    simp [shard_major_keyspace_compaction_task_impl.run, he]

/-- C11, as it fails.  The lookup of table 2 throws an exception that is not
`no_such_column_family`: the sort throws it, the worker fails with it, and the runner is not
called. -/
theorem sort_throws_what_the_lookup_throws :
    (insertion_sort Nat (thrown String)).sort
      (sort_projection (example_db second_unreadable) sizes) [1, 2, 3]
      = .error (.other "bad metadata") ∧
    ((⟨⟨0, 0⟩, "ks", 0, 0, [1, 2, 3]⟩ : shard_major_keyspace_compaction_task_impl Nat Nat).run
      (insertion_sort Nat (thrown String)) (example_db second_unreadable) sizes).result
      = .error (.other "bad metadata") ∧
    ((⟨⟨0, 0⟩, "ks", 0, 0, [1, 2, 3]⟩ : shard_major_keyspace_compaction_task_impl Nat Nat).run
      (insertion_sort Nat (thrown String)) (example_db second_unreadable) sizes).trace = [] := by
  decide

/-- C11, amended.  When no lookup of a listed table throws anything but `no_such_column_family`,
the sort returns, and the run of the worker is the run of the runner on the sorted list. -/
theorem sort_returns_when_lookups_only_miss {σ ι τ T ε : Type}
    (std : ranges_sort τ (thrown ε)) (db : database σ τ T ε)
    (task : shard_major_keyspace_compaction_task_impl ι τ) (s : σ)
    (hfind : ∀ ti ∈ task._local_tables, ∀ e, db.find_column_family s ti ≠ .error (.other e)) :
    ∃ sorted, std.sort (sort_projection db s) task._local_tables = .ok sorted ∧
      task.run std db s = run_on_existing_tables "force_keyspace_compaction" db task.keyspace
        db.compact_all_sstables sorted s := by
  obtain ⟨sorted, hs⟩ := std.returns (sort_projection db s) task._local_tables
    (fun ti hti => sort_projection_returns db s ti (hfind ti hti))
  exact ⟨sorted, hs, by simp [shard_major_keyspace_compaction_task_impl.run, hs]⟩

/-- Table 2 has been dropped: the sort returns 2, 1, 3 and the runner is called on this list. -/
theorem sort_returns_when_lookups_only_miss_witness :
    ∃ sorted, (insertion_sort Nat (thrown String)).sort
        (sort_projection (example_db second_dropped) sizes) [1, 2, 3] = .ok sorted ∧
      (⟨⟨0, 0⟩, "ks", 0, 0, [1, 2, 3]⟩ : shard_major_keyspace_compaction_task_impl Nat Nat).run
        (insertion_sort Nat (thrown String)) (example_db second_dropped) sizes =
      run_on_existing_tables "force_keyspace_compaction" (example_db second_dropped) "ks"
        (example_db second_dropped).compact_all_sstables sorted sizes :=
  sort_returns_when_lookups_only_miss (insertion_sort Nat (thrown String))
    (example_db second_dropped) ⟨⟨0, 0⟩, "ks", 0, 0, [1, 2, 3]⟩ sizes
    (by intro ti _ e; simp only [example_db, second_dropped]; split_ifs <;> simp_all)


/-! ### The log of the runner -/

theorem logged_append {τ T ε : Type} (a b : List (event τ T ε)) :
    logged (a ++ b) = logged a ++ logged b := by
  induction a with
  | nil => rfl
  | cons e a ih => cases e <;> simp [logged, ih]

theorem error_entries_append {τ T ε : Type} (a b : List (event τ T ε)) :
    error_entries (a ++ b) = error_entries a + error_entries b := by
  induction a with
  | nil => simp [error_entries]
  | cons e a ih => cases e <;> simp [error_entries, ih, Nat.add_right_comm]

theorem call_func_logged {σ τ T ε : Type} (db : database σ τ T ε)
    (func : T → σ → Except (thrown ε) Unit × σ) (s : σ) (ti : τ) :
    logged (call_func db func s ti).trace = [] ∧
      error_entries (call_func db func s ti).trace = 0 := by
  unfold call_func
  cases db.find_column_family s ti <;> simp [logged, error_entries]

/-- The log of one iteration of the loop. -/
theorem run_singleton_logged {σ τ T ε : Type} (op : String) (db : database σ τ T ε)
    (keyspace : String) (func : T → σ → Except (thrown ε) Unit × σ) (s : σ) (ti : τ) :
    logged (run_on_existing_tables op db keyspace func [ti] s).trace =
      table_log op keyspace ti (call_func db func s ti).result := by
  obtain ⟨h1, _⟩ := call_func_logged db func s ti
  rcases hc : (call_func db func s ti).result with (_ | w) | u'
  · rw [run_cons_of_no_such op db keyspace func ti [] s _ hc]
    simp [run_on_existing_tables, logged, logged_append, h1, table_log]
  · rw [run_cons_of_other op db keyspace func ti [] s _ hc]
    simp [logged, logged_append, h1, table_log]
  · rw [run_cons_of_ok op db keyspace func ti [] s _ hc]
    simp [run_on_existing_tables, logged, logged_append, h1, table_log]

theorem error_entries_of_run {σ τ T ε : Type} (op : String) (db : database σ τ T ε)
    (keyspace : String) (func : T → σ → Except (thrown ε) Unit × σ) :
    ∀ (l : List τ) (s : σ),
      error_entries (run_on_existing_tables op db keyspace func l s).trace =
        match (run_on_existing_tables op db keyspace func l s).result with
        | .ok _ => 0
        | .error _ => 1 := by
  intro l
  induction l with
  | nil => intro s; rfl
  | cons ti rest ih =>
    intro s
    obtain ⟨_, h2⟩ := call_func_logged db func s ti
    rcases hc : (call_func db func s ti).result with (_ | w) | u'
    · rw [run_cons_of_no_such op db keyspace func ti rest s _ hc]
      simp [error_entries, error_entries_append, h2, ih]
    · rw [run_cons_of_other op db keyspace func ti rest s _ hc]
      simp [error_entries, error_entries_append, h2]
    · rw [run_cons_of_ok op db keyspace func ti rest s _ hc]
      simp [error_entries, error_entries_append, h2, ih]

/-- C12.  Each table the runner starts on adds to the log one debug entry, followed by one
warning when the table is skipped for `no_such_column_family`, by one error entry when the
attempt fails with anything else, and by nothing when it succeeds.  The tables after the first
that fails add nothing.  The log has one error entry when the run fails and none when it
succeeds. -/
theorem run_on_existing_tables_logs_each_table {σ τ T ε : Type} (op : String)
    (db : database σ τ T ε) (keyspace : String) (func : T → σ → Except (thrown ε) Unit × σ)
    (local_tables : List τ) (s : σ) :
    (∀ pre ti post, local_tables = pre ++ ti :: post →
      (run_on_existing_tables op db keyspace func pre s).result = .ok () →
      logged (run_on_existing_tables op db keyspace func (pre ++ [ti]) s).trace =
        logged (run_on_existing_tables op db keyspace func pre s).trace ++
          table_log op keyspace ti
            (call_func db func (run_on_existing_tables op db keyspace func pre s).state ti).result)
    ∧
    (∀ pre ti post x, local_tables = pre ++ ti :: post →
      (run_on_existing_tables op db keyspace func pre s).result = .ok () →
      table_error db func (run_on_existing_tables op db keyspace func pre s).state ti = some x →
      logged (run_on_existing_tables op db keyspace func local_tables s).trace =
        logged (run_on_existing_tables op db keyspace func (pre ++ [ti]) s).trace) ∧
    error_entries (run_on_existing_tables op db keyspace func local_tables s).trace =
      (match (run_on_existing_tables op db keyspace func local_tables s).result with
        | .ok _ => 0
        | .error _ => 1) := by
  refine ⟨?_, ?_, error_entries_of_run op db keyspace func local_tables s⟩
  · intro pre ti post _ hpre
    rw [run_append_of_ok op db keyspace func [ti] pre s () hpre, after_trace, logged_append,
      run_singleton_logged]
  · rintro pre ti post x rfl hpre hfail
    have hc := (table_error_eq_some db func _ ti x).mp hfail
    rw [run_append_of_ok op db keyspace func (ti :: post) pre s () hpre,
      run_append_of_ok op db keyspace func [ti] pre s () hpre,
      run_cons_of_other op db keyspace func ti post _ x hc,
      run_cons_of_other op db keyspace func ti [] _ x hc]

/-- Tables 1 and 2 have been dropped: the log has a debug entry and a warning for each of them,
and a debug entry for table 3. -/
theorem run_on_existing_tables_logs_each_table_witness :
    logged (run_on_existing_tables "force_keyspace_compaction" (example_db only_third) "ks"
      (example_db only_third).compact_all_sstables [1, 2, 3] sizes).trace =
      [event.debug "force_keyspace_compaction" "ks" 1,
        event.warn "force_keyspace_compaction" "ks" 1 "no such table",
        event.debug "force_keyspace_compaction" "ks" 2,
        event.warn "force_keyspace_compaction" "ks" 2 "no such table",
        event.debug "force_keyspace_compaction" "ks" 3] :=
  ((run_on_existing_tables_logs_each_table "force_keyspace_compaction" (example_db only_third)
    "ks" (example_db only_third).compact_all_sstables [1, 2, 3] sizes).1 [1, 2] 3 [] rfl
    (by decide)).trans (by decide)


/-! ### What the sort and the fan-out leave unchanged -/

/-- A run that succeeds has started on every table of the list, in order. -/
theorem attempted_of_ok {σ τ T ε : Type} (op : String) (db : database σ τ T ε)
    (keyspace : String) (func : T → σ → Except (thrown ε) Unit × σ) :
    ∀ (l : List τ) (s : σ),
      (run_on_existing_tables op db keyspace func l s).result = .ok () →
      attempted (run_on_existing_tables op db keyspace func l s).trace = l := by
  intro l
  induction l with
  | nil => intro _ _; rfl
  | cons tj rest ih =>
    intro s h
    have hn := (run_ok_iff op db keyspace func (tj :: rest) s).mp h [] tj rest rfl
    obtain ⟨e, h1, h2, _⟩ := run_cons_state op db keyspace func s tj rest hn
    rw [h1] at h ⊢
    rw [after_trace, attempted_append, h2, ih _ (by simpa using h)]
    rfl

/-- C14.  The list the sort returns, on which the runner is called, is a rearrangement of the list
of the worker.  When the worker succeeds, the tables it started on are a rearrangement of its
list: every table is started on as many times as it occurs in the list. -/
theorem shard_sort_only_reorders {σ ι τ T ε : Type} [DecidableEq τ]
    (std : ranges_sort τ (thrown ε)) (db : database σ τ T ε)
    (task : shard_major_keyspace_compaction_task_impl ι τ) (s : σ) :
    (∀ sorted, std.sort (sort_projection db s) task._local_tables = .ok sorted →
      sorted.Perm task._local_tables ∧
      task.run std db s = run_on_existing_tables "force_keyspace_compaction" db task.keyspace
        db.compact_all_sstables sorted s) ∧
    ((task.run std db s).result = .ok () →
      (attempted (task.run std db s).trace).Perm task._local_tables ∧
      ∀ ti, (attempted (task.run std db s).trace).count ti = task._local_tables.count ti) := by
  have hrun : ∀ sorted, std.sort (sort_projection db s) task._local_tables = .ok sorted →
      task.run std db s = run_on_existing_tables "force_keyspace_compaction" db task.keyspace
        db.compact_all_sstables sorted s := by
    intro sorted hs
    simp [shard_major_keyspace_compaction_task_impl.run, hs]
  refine ⟨fun sorted hs => ⟨(std.sorted _ _ _ hs).1, hrun sorted hs⟩, ?_⟩
  intro hok
  cases hs : std.sort (sort_projection db s) task._local_tables with
  | error e =>
    simp [shard_major_keyspace_compaction_task_impl.run, hs] at hok
  | ok sorted =>
    rw [hrun sorted hs] at hok ⊢
    rw [attempted_of_ok _ db _ _ sorted s hok]
    exact ⟨(std.sorted _ _ _ hs).1, fun ti => (std.sorted _ _ _ hs).1.count_eq ti⟩

/-- Table 1 is listed twice: the worker starts on it twice. -/
theorem shard_sort_only_reorders_witness :
    (attempted ((⟨⟨0, 0⟩, "ks", 0, 0, [1, 2, 1]⟩ :
      shard_major_keyspace_compaction_task_impl Nat Nat).run
        (insertion_sort Nat (thrown String)) (example_db three_tables) sizes).trace).count 1
      = 2 :=
  ((shard_sort_only_reorders (insertion_sort Nat (thrown String)) (example_db three_tables)
    ⟨⟨0, 0⟩, "ks", 0, 0, [1, 2, 1]⟩ sizes).2 (by decide)).2 1

/-- C15.  When a table resolves and the per-table operation on it throws
`no_such_column_family`, the runner logs a warning and goes on with the tables that follow, in the
state the operation left: the table produces no error, and the result of the run is the result
of the run on the tables that follow. -/
theorem run_on_existing_tables_skips_table_dropped_in_operation {σ τ T ε : Type} (op : String)
    (db : database σ τ T ε) (keyspace : String) (func : T → σ → Except (thrown ε) Unit × σ)
    (pre : List τ) (ti : τ) (post : List τ) (s : σ) (t : T) (what : String)
    (hpre : (run_on_existing_tables op db keyspace func pre s).result = .ok ())
    (hfind : db.find_column_family (run_on_existing_tables op db keyspace func pre s).state ti
      = .ok t)
    (hfunc : (func t (run_on_existing_tables op db keyspace func pre s).state).1
      = .error (.no_such_column_family what)) :
    run_on_existing_tables op db keyspace func (pre ++ ti :: post) s =
      (run_on_existing_tables op db keyspace func post
        (func t (run_on_existing_tables op db keyspace func pre s).state).2).after
        ((run_on_existing_tables op db keyspace func pre s).trace ++
          [event.debug op keyspace ti, event.func_called ti t,
            event.func_resolved ti (.error (.no_such_column_family what)),
            event.warn op keyspace ti what]) ∧
    table_error db func (run_on_existing_tables op db keyspace func pre s).state ti = none ∧
    (run_on_existing_tables op db keyspace func (pre ++ ti :: post) s).result =
      (run_on_existing_tables op db keyspace func post
        (func t (run_on_existing_tables op db keyspace func pre s).state).2).result ∧
    (run_on_existing_tables op db keyspace func (pre ++ [ti]) s).result = .ok () := by
  have hc : call_func db func (run_on_existing_tables op db keyspace func pre s).state ti =
      ⟨.error (.no_such_column_family what),
        (func t (run_on_existing_tables op db keyspace func pre s).state).2,
        [event.func_called ti t,
          event.func_resolved ti (.error (.no_such_column_family what))]⟩ := by
    simp [call_func, hfind, hfunc]
  have hrun : ∀ q, run_on_existing_tables op db keyspace func (pre ++ ti :: q) s =
      (run_on_existing_tables op db keyspace func q
        (func t (run_on_existing_tables op db keyspace func pre s).state).2).after
        ((run_on_existing_tables op db keyspace func pre s).trace ++
          [event.debug op keyspace ti, event.func_called ti t,
            event.func_resolved ti (.error (.no_such_column_family what)),
            event.warn op keyspace ti what]) := by
    intro q
    rw [run_append_of_ok op db keyspace func _ pre s () hpre,
      run_cons_of_no_such op db keyspace func ti q _ what (by rw [hc]), hc, after_after]
    simp
  refine ⟨hrun post, ?_, by rw [hrun post, after_result], by rw [hrun [], after_result]; rfl⟩
  simp [table_error, hc]

/-- Table 2 is dropped while it is compacted: the runner goes on to table 3 and succeeds. -/
theorem run_on_existing_tables_skips_table_dropped_in_operation_witness :
    (run_on_existing_tables "force_keyspace_compaction" racing_db "ks"
      racing_db.compact_all_sstables [1, 2, 3] [1, 2, 3]).result = .ok () ∧
    invocations (run_on_existing_tables "force_keyspace_compaction" racing_db "ks"
      racing_db.compact_all_sstables [1, 2, 3] [1, 2, 3]).trace = [(1, 1), (2, 2), (3, 3)] := by
  have h := run_on_existing_tables_skips_table_dropped_in_operation "force_keyspace_compaction"
    racing_db "ks" racing_db.compact_all_sstables [1] 2 [3] [1, 2, 3] 2
    "dropped during compaction" (by decide) (by decide) (by decide)
  exact ⟨h.2.2.1.trans (by decide),
    (congrArg (fun o => invocations o.trace) h.1).trans (by decide)⟩

/-- C16.  On every shard the worker is created with the whole table list of the coordinator,
however many shards there are. -/
theorem coordinator_hands_every_worker_the_whole_list {σ ι τ T ε : Type}
    (_db : sharded (thrown ε)) (std : ranges_sort τ (thrown ε)) (db : database σ τ T ε)
    (self : major_keyspace_compaction_task_impl ι τ) (smp : Nat) (states : Nat → σ) :
    (self.run _db std db smp states).shards.map (fun r => r.1._local_tables)
      = List.replicate smp self._table_infos ∧
    ∀ r ∈ (self.run _db std db smp states).shards, r.1._local_tables = self._table_infos := by
  have hall : ∀ r ∈ (self.run _db std db smp states).shards,
      r.1._local_tables = self._table_infos := by
    intro r hr
    rw [run_shards] at hr
    obtain ⟨shard, _, rfl⟩ := List.mem_map.mp hr
    rfl
  refine ⟨?_, hall⟩
  rw [List.eq_replicate_iff]
  constructor
  · simp [run_shards]
  · intro l hl
    obtain ⟨r, hr, rfl⟩ := List.mem_map.mp hl
    exact hall r hr

/-- On two shards both workers get the list 1, 2. -/
theorem coordinator_hands_every_worker_the_whole_list_witness :
    ((⟨⟨7, 0, "ks"⟩, [1, 2]⟩ : major_keyspace_compaction_task_impl Nat Nat).run
      (in_shard_order (thrown String)) (insertion_sort Nat (thrown String))
      full_disk_db 2 (fun shard => decide (shard = 1))).shards.map (fun r => r.1._local_tables)
      = [[1, 2], [1, 2]] :=
  (coordinator_hands_every_worker_the_whole_list (in_shard_order (thrown String))
    (insertion_sort Nat (thrown String)) full_disk_db ⟨⟨7, 0, "ks"⟩, [1, 2]⟩ 2
    (fun shard => decide (shard = 1))).1


/-! ### The order of tables with the same key -/

theorem unguarded_linear_insert_filter {α : Type} (val : Int × α) (k : Int) :
    ∀ front : List (Int × α),
      (__unguarded_linear_insert key_lt val front).filter (fun p => p.1 == k) =
        [val].filter (fun p => p.1 == k) ++ front.filter (fun p => p.1 == k) := by
  intro front
  induction front with
  | nil => simp [__unguarded_linear_insert]
  | cons next front ih =>
    unfold __unguarded_linear_insert
    by_cases h : key_lt val next = true
    · rw [if_pos h, List.filter_cons, ih]
      have hlt : val.1 < next.1 := by simpa [key_lt] using h
      by_cases hn : next.1 = k
      · have hv : ¬ val.1 = k := by omega
        simp [List.filter_cons, hn, hv]
      · simp [List.filter_cons, hn]
    · rw [if_neg h]
      by_cases hv : val.1 = k <;> simp [List.filter_cons, hv]

theorem unguarded_linear_insert_mem {α : Type} (val : Int × α) :
    ∀ (front : List (Int × α)) (x : Int × α),
      x ∈ __unguarded_linear_insert key_lt val front ↔ x = val ∨ x ∈ front := by
  intro front
  induction front with
  | nil => intro x; simp [__unguarded_linear_insert]
  | cons next front ih =>
    intro x
    unfold __unguarded_linear_insert
    by_cases h : key_lt val next = true
    · rw [if_pos h, List.mem_cons, ih, List.mem_cons]
      tauto
    · rw [if_neg h]
      simp

theorem unguarded_linear_insert_sorted {α : Type} (val : Int × α) :
    ∀ front : List (Int × α), front.Pairwise (fun a b => b.1 ≤ a.1) →
      (__unguarded_linear_insert key_lt val front).Pairwise (fun a b => b.1 ≤ a.1) := by
  intro front
  induction front with
  | nil => intro _; simp [__unguarded_linear_insert]
  | cons next front ih =>
    intro h
    obtain ⟨h1, h2⟩ := List.pairwise_cons.mp h
    unfold __unguarded_linear_insert
    by_cases hlt : key_lt val next = true
    · rw [if_pos hlt]
      have hlt' : val.1 < next.1 := by simpa [key_lt] using hlt
      refine List.pairwise_cons.mpr ⟨?_, ih h2⟩
      intro b hb
      rcases (unguarded_linear_insert_mem val front b).mp hb with rfl | hb
      · omega
      · exact h1 b hb
    · rw [if_neg hlt]
      have hge : next.1 ≤ val.1 := by
        have : ¬ val.1 < next.1 := by simpa [key_lt] using hlt
        omega
      refine List.pairwise_cons.mpr ⟨?_, h⟩
      intro b hb
      rcases List.mem_cons.mp hb with rfl | hb
      · exact hge
      · exact Int.le_trans (h1 b hb) hge

theorem insertion_step_spec {α : Type} (sorted : List (Int × α)) (val : Int × α)
    (h : sorted.Pairwise (fun a b => b.1 ≤ a.1)) :
    (insertion_step key_lt sorted val).Pairwise (fun a b => b.1 ≤ a.1) ∧
    ∀ k, (insertion_step key_lt sorted val).filter (fun p => p.1 == k) =
      [val].filter (fun p => p.1 == k) ++ sorted.filter (fun p => p.1 == k) := by
  unfold insertion_step
  cases hl : sorted.getLast? with
  | none =>
    have : sorted = [] := List.getLast?_eq_none_iff.mp hl
    subst this
    simp
  | some first =>
    obtain ⟨init, rfl⟩ := List.getLast?_eq_some_iff.mp hl
    have hmin : ∀ a ∈ init ++ [first], first.1 ≤ a.1 := by
      intro a ha
      rcases List.mem_append.mp ha with ha | ha
      · exact (List.pairwise_append.mp h).2.2 a ha first (by simp)
      · have : a = first := by simpa using ha
        subst this
        exact Int.le_refl _
    by_cases hlt : key_lt val first = true
    · simp only [hlt, if_true]
      have hlt' : val.1 < first.1 := by simpa [key_lt] using hlt
      constructor
      · refine List.pairwise_append.mpr ⟨h, by simp, ?_⟩
        intro a ha b hb
        have : b = val := by simpa using hb
        subst this
        have := hmin a ha
        omega
      · intro k
        rw [List.filter_append]
        by_cases hk : val.1 = k
        · have hnil : (init ++ [first]).filter (fun p => p.1 == k) = [] := by
            rw [List.filter_eq_nil_iff]
            intro a ha
            have := hmin a ha
            simp only [beq_iff_eq]
            omega
          rw [hnil]
          simp
        · simp [List.filter_cons, hk]
    · simp only [hlt]
      exact ⟨unguarded_linear_insert_sorted val _ h,
        fun k => unguarded_linear_insert_filter val k _⟩

theorem insertion_steps_spec {α : Type} :
    ∀ (rest sorted : List (Int × α)), sorted.Pairwise (fun a b => b.1 ≤ a.1) →
      ∀ k, (rest.foldl (insertion_step key_lt) sorted).filter (fun p => p.1 == k) =
        (rest.filter (fun p => p.1 == k)).reverse ++ sorted.filter (fun p => p.1 == k) := by
  intro rest
  induction rest with
  | nil => intro sorted _ k; simp
  | cons val rest ih =>
    intro sorted h k
    obtain ⟨h1, h2⟩ := insertion_step_spec sorted val h
    rw [List.foldl_cons, ih _ h1 k, h2 k]
    by_cases hk : val.1 = k <;> simp [List.filter_cons, hk]

/-- The insertion sort of libstdc++ keeps tables with the same key in their order. -/
theorem insertion_sort_is_stable {α : Type} (v : List (Int × α)) (k : Int) :
    (__insertion_sort key_lt v).filter (fun p => p.1 == k) = v.filter (fun p => p.1 == k) := by
  cases v with
  | nil => rfl
  | cons first rest =>
    unfold __insertion_sort
    rw [List.filter_reverse, insertion_steps_spec rest [first] (by simp) k]
    by_cases hk : first.1 = k <;> simp [List.filter_cons, hk]

/-- A range of at most 16 elements is sorted by insertion alone. -/
theorem sort_of_short_range {β : Type} (comp : β → β → Bool) (v : List β)
    (h : v.length ≤ 16) : __sort comp v = __insertion_sort comp v := by
  have hth : ¬ _S_threshold < v.length := by simp only [_S_threshold]; omega
  have hloop : ∀ depth_limit, __introsort_loop comp depth_limit v = v := by
    intro depth_limit
    cases depth_limit <;> simp [__introsort_loop, hth]
  unfold __sort
  cases v with
  | nil => rfl
  | cons x v =>
    simp only [List.isEmpty_cons, Bool.false_eq_true, if_false]
    rw [hloop]
    unfold __final_insertion_sort
    rw [if_neg hth]

/-- C7, as it fails.  Of seventeen tables the first two are empty and come in the order 1, 2;
the sort hands them to the runner in the order 2, 1. -/
theorem sort_reorders_equal_keys_of_seventeen_tables :
    sort_projection (example_db seventeen_tables) seventeen_sizes 1
      = sort_projection (example_db seventeen_tables) seventeen_sizes 2 ∧
    libstdcxx_sort (sort_projection (example_db seventeen_tables) seventeen_sizes)
      [1, 2, 3, 4, 5, 6, 7, 8, 9, 10, 11, 12, 13, 14, 15, 16, 17]
      = (.ok [2, 1, 3, 4, 5, 6, 7, 8, 9, 10, 11, 12, 13, 14, 15, 16, 17] :
          Except (thrown String) (List Nat)) := by
  decide

/-- C7, amended.  In a list of at most 16 tables the sort keeps the tables of each key in the
order they have in the list. -/
theorem sort_is_stable_up_to_sixteen_tables {σ τ T ε : Type} (db : database σ τ T ε) (s : σ)
    (local_tables sorted : List τ) (hlen : local_tables.length ≤ 16)
    (hsort : libstdcxx_sort (sort_projection db s) local_tables = .ok sorted) (k : Int) :
    sorted.filter (has_key db s k) = local_tables.filter (has_key db s k) := by
  unfold libstdcxx_sort sort_with at hsort
  split at hsort
  · simp only [Except.ok.injEq] at hsort
    rw [hsort]
  · cases hk : keyed (sort_projection db s) local_tables with
    | error e => rw [hk] at hsort; cases hsort
    | ok ks =>
      rw [hk] at hsort
      simp only [Except.ok.injEq] at hsort
      obtain ⟨hmap, hkeys⟩ := keyed_ok (sort_projection db s) local_tables ks hk
      have hshort : ks.length ≤ 16 := by
        have := congrArg List.length hmap
        rw [List.length_map] at this
        omega
      have hstable : ∀ k', (libstdcxx_order ks).filter (fun p => p.1 == k')
          = ks.filter (fun p => p.1 == k') := by
        intro k'
        unfold libstdcxx_order
        rw [sort_of_short_range key_lt ks hshort]
        exact insertion_sort_is_stable ks k'
      have hmem : ∀ p ∈ libstdcxx_order ks, p ∈ ks := by
        intro p hp
        have : p ∈ (libstdcxx_order ks).filter (fun q => q.1 == p.1) :=
          List.mem_filter.mpr ⟨hp, by simp⟩
        rw [hstable] at this
        exact (List.mem_filter.mp this).1
      have hkey : ∀ p ∈ ks, (has_key db s k ∘ Prod.snd) p = (p.1 == k) := by
        intro p hp
        simp [has_key, hkeys p hp]
      rw [← hsort, ← hmap, List.filter_map, List.filter_map,
        List.filter_congr (fun p hp => hkey p (hmem p hp)), List.filter_congr hkey, hstable]

/-- Tables 3, 1, 2 of sizes 1000, 10, 10 are sorted into 1, 2, 3: the tables of key 10 keep
their order. -/
theorem sort_is_stable_up_to_sixteen_tables_witness :
    [1, 2, 3].filter (has_key (example_db three_tables) equal_sizes 10) =
      [3, 1, 2].filter (has_key (example_db three_tables) equal_sizes 10) :=
  sort_is_stable_up_to_sixteen_tables (example_db three_tables) equal_sizes [3, 1, 2] [1, 2, 3]
    (by decide) (by decide) 10

/-- C8, as it fails.  Table 1 exists and reports a live disk space of -5; table 2 has been
dropped and gets the key -1.  Whichever sort the library provides, table 1 comes before table 2
in the sorted list. -/
theorem negative_size_sorts_before_dropped_table :
    (example_db only_first).find_column_family negative_size 1 = .ok 1 ∧
    (example_db only_first).find_column_family negative_size 2
      = .error (.no_such_column_family "no such table") ∧
    sort_projection (example_db only_first) negative_size 1 = .ok (-5) ∧
    sort_projection (example_db only_first) negative_size 2 = .ok (-1) ∧
    libstdcxx_sort (sort_projection (example_db only_first) negative_size) [2, 1]
      = .ok [1, 2] ∧
    ∀ std : ranges_sort Nat (thrown String),
      std.sort (sort_projection (example_db only_first) negative_size) [2, 1] = .ok [1, 2] := by
  refine ⟨by decide, by decide, by decide, by decide, by decide, ?_⟩
  intro std
  obtain ⟨sorted, hs⟩ := std.returns (sort_projection (example_db only_first) negative_size)
    [2, 1]
    (by
      intro x hx
      fin_cases hx
      · exact ⟨-1, by decide⟩
      · exact ⟨-5, by decide⟩)
  obtain ⟨hperm, hsorted⟩ := std.sorted _ _ _ hs
  have hmem := List.mem_permutations.mpr hperm
  have hcases : sorted = [1, 2] := by
    simp only [List.permutations, List.permutationsAux, List.permutationsAux.rec,
      List.permutationsAux2, List.foldr, List.map, List.mem_cons, List.mem_singleton,
      List.append_nil, List.nil_append, List.cons_append, id, List.not_mem_nil, or_false,
      List.mem_append] at hmem
    rcases hmem with h | h
    · subst h
      have h21 := (List.pairwise_cons.mp hsorted).1 1 (by simp) (-1) (-5) (by decide) (by decide)
      omega
    · exact h
  rw [hs, hcases]


/-! ### Tables dropped before or during the run -/

/-- C5.  Take any set of tables of the list whose lookup throws `no_such_column_family` when the
runner reaches them, whether they were dropped before the run or during it.  Removing them from
the list changes neither the result of the runner, nor the state it leaves, nor the calls to the
per-table operation. -/
theorem run_on_existing_tables_drop_tolerant {σ τ T ε : Type} (op : String)
    (db : database σ τ T ε) (keyspace : String) (func : T → σ → Except (thrown ε) Unit × σ)
    (dropped : τ → Bool) (local_tables : List τ) (s : σ)
    (hdropped : ∀ pre ti post, local_tables = pre ++ ti :: post → dropped ti = true →
      (run_on_existing_tables op db keyspace func pre s).result = .ok () →
      ∃ w, db.find_column_family (run_on_existing_tables op db keyspace func pre s).state ti
        = .error (.no_such_column_family w)) :
    (run_on_existing_tables op db keyspace func local_tables s).result =
      (run_on_existing_tables op db keyspace func
        (local_tables.filter (fun ti => !dropped ti)) s).result ∧
    (run_on_existing_tables op db keyspace func local_tables s).state =
      (run_on_existing_tables op db keyspace func
        (local_tables.filter (fun ti => !dropped ti)) s).state ∧
    invocations (run_on_existing_tables op db keyspace func local_tables s).trace =
      invocations (run_on_existing_tables op db keyspace func
        (local_tables.filter (fun ti => !dropped ti)) s).trace := by
  induction local_tables generalizing s with
  | nil => exact ⟨rfl, rfl, rfl⟩
  | cons ti rest ih =>
    -- what the hypothesis gives for the tables after `ti`, once `ti` has not stopped the run
    have hrest : ∀ (pre : List τ),
        (run_on_existing_tables op db keyspace func (ti :: pre) s).result =
          (run_on_existing_tables op db keyspace func pre (call_func db func s ti).state).result ∧
        (run_on_existing_tables op db keyspace func (ti :: pre) s).state =
          (run_on_existing_tables op db keyspace func pre (call_func db func s ti).state).state →
        ∀ tj post, rest = pre ++ tj :: post → dropped tj = true →
        (run_on_existing_tables op db keyspace func pre (call_func db func s ti).state).result
          = .ok () →
        ∃ w, db.find_column_family
          (run_on_existing_tables op db keyspace func pre (call_func db func s ti).state).state tj
            = .error (.no_such_column_family w) := by
      intro pre hsame tj post hsplit hd hok
      have := hdropped (ti :: pre) tj post (by rw [hsplit]; rfl) hd (by rw [hsame.1]; exact hok)
      rwa [hsame.2] at this
    cases hd : dropped ti with
    | true =>
      obtain ⟨w, hw⟩ := hdropped [] ti rest rfl hd rfl
      have hc : call_func db func s ti = ⟨.error (.no_such_column_family w), s, []⟩ := by
        simp [call_func, run_on_existing_tables] at hw ⊢
        simp [hw]
      have hcr : (call_func db func s ti).result = .error (.no_such_column_family w) := by
        rw [hc]
      obtain ⟨h1, h2, h3⟩ := ih (call_func db func s ti).state (fun pre tj post =>
        hrest pre (by rw [run_cons_of_no_such op db keyspace func ti pre s w hcr]; simp) tj post)
      rw [List.filter_cons_of_neg (by simp [hd]),
        run_cons_of_no_such op db keyspace func ti rest s w hcr]
      rw [hc] at h1 h2 h3 ⊢
      refine ⟨by simpa using h1, by simpa using h2, ?_⟩
      simp only [after_trace, invocations_append, ← h3]
      simp [invocations]
    | false =>
      rw [List.filter_cons_of_pos (by simp [hd])]
      rcases hc : (call_func db func s ti).result with (_ | w) | u'
      · rw [run_cons_of_no_such op db keyspace func ti rest s _ hc,
          run_cons_of_no_such op db keyspace func ti _ s _ hc]
        obtain ⟨h1, h2, h3⟩ := ih (call_func db func s ti).state (fun pre tj post =>
          hrest pre (by rw [run_cons_of_no_such op db keyspace func ti pre s _ hc]; simp) tj post)
        refine ⟨by simp [h1], by simp [h2], ?_⟩
        simp only [after_trace, invocations_append, h3]
      · rw [run_cons_of_other op db keyspace func ti rest s _ hc,
          run_cons_of_other op db keyspace func ti _ s _ hc]
        exact ⟨rfl, rfl, rfl⟩
      · rw [run_cons_of_ok op db keyspace func ti rest s _ hc,
          run_cons_of_ok op db keyspace func ti _ s _ hc]
        obtain ⟨h1, h2, h3⟩ := ih (call_func db func s ti).state (fun pre tj post =>
          hrest pre (by rw [run_cons_of_ok op db keyspace func ti pre s _ hc]; simp) tj post)
        refine ⟨by simp [h1], by simp [h2], ?_⟩
        simp only [after_trace, invocations_append, h3]

/-- The second end-to-end scenario: table 2 exists when the run starts and is dropped while
table 1 is compacted.  The run on tables 1, 2, 3 and the run on tables 1, 3 have the same
result, success, and the same calls, on table 1 and on table 3. -/
theorem run_on_existing_tables_drop_tolerant_witness :
    dropping_db.find_column_family [1, 2, 3] 2 = .ok 2 ∧
    (run_on_existing_tables "force_keyspace_compaction" dropping_db "ks"
      dropping_db.compact_all_sstables [1, 2, 3] [1, 2, 3]).result =
      (run_on_existing_tables "force_keyspace_compaction" dropping_db "ks"
        dropping_db.compact_all_sstables [1, 3] [1, 2, 3]).result ∧
    (run_on_existing_tables "force_keyspace_compaction" dropping_db "ks"
      dropping_db.compact_all_sstables [1, 2, 3] [1, 2, 3]).result = .ok () ∧
    invocations (run_on_existing_tables "force_keyspace_compaction" dropping_db "ks"
      dropping_db.compact_all_sstables [1, 2, 3] [1, 2, 3]).trace =
      invocations (run_on_existing_tables "force_keyspace_compaction" dropping_db "ks"
        dropping_db.compact_all_sstables [1, 3] [1, 2, 3]).trace ∧
    invocations (run_on_existing_tables "force_keyspace_compaction" dropping_db "ks"
      dropping_db.compact_all_sstables [1, 2, 3] [1, 2, 3]).trace = [(1, 1), (3, 3)] := by
  have h := run_on_existing_tables_drop_tolerant "force_keyspace_compaction"
    dropping_db "ks" dropping_db.compact_all_sstables
    (fun ti => ti == 2) [1, 2, 3] [1, 2, 3]
    (by
      intro pre ti post hsplit hti _
      have h2 : ti = 2 := by simpa using hti
      subst h2
      have hpre : pre = [1] := by
        rcases pre with _ | ⟨a, _ | ⟨b, pre⟩⟩
        · simp at hsplit
        · simp at hsplit
          rw [hsplit.1]
        · rcases pre with _ | ⟨c, pre⟩ <;> simp at hsplit
      subst hpre
      exact ⟨"no such table", by decide⟩)
  exact ⟨by decide, h.1, by decide, h.2.2, by decide⟩

end compaction
